import Mathlib

/-!
# StoryNest: post service and editor validation

A shallow embedding of the blog post service (`blog-app/server/routes/blogRoutes.js`,
`blog-app/server/models/Blog.js`) and of the editor's validation, tag handling and
save handlers (`frontend/blogg/src/components/BlogEditor.js`).

Strings are JavaScript strings: finite sequences of UTF-16 code units, so `length`
counts code units exactly as `String.prototype.length` does.  Request fields are
either absent (`undefined`/`null`) or strings.  The document store is an in-memory
collection; the three clock readings a request can take are inputs.
-/

namespace StoryNest

/-! ## JavaScript strings -/

/-- A UTF-16 code unit. -/
abbrev CodeUnit := Nat

/-- A JavaScript string: a sequence of UTF-16 code units. -/
abbrev JSString := List CodeUnit

/-- The code unit of `,`. -/
def comma : CodeUnit := 44

/-- The code unit of the space character. -/
def space : CodeUnit := 32

/-- ECMAScript `WhiteSpace` and `LineTerminator` code points, the ones `trim` strips. -/
def isWhiteSpace (c : CodeUnit) : Bool :=
  c == 9 || c == 10 || c == 11 || c == 12 || c == 13 || c == 32 || c == 160 ||
  c == 5760 || (8192 ≤ c && c ≤ 8202) || c == 8232 || c == 8233 || c == 8239 ||
  c == 8287 || c == 12288 || c == 65279

/-- `String.prototype.trimStart`. -/
def trimStart (s : JSString) : JSString :=
  s.dropWhile isWhiteSpace

/-- `String.prototype.trimEnd`. -/
def trimEnd (s : JSString) : JSString :=
  (s.reverse.dropWhile isWhiteSpace).reverse

/-- `String.prototype.trim`. -/
def trim (s : JSString) : JSString :=
  trimEnd (trimStart s)

/-- `String.prototype.split` with a single code unit as separator. -/
def split (sep : CodeUnit) : JSString → List JSString
  | [] => [[]]
  | c :: cs =>
    if c = sep then [] :: split sep cs
    else
      match split sep cs with
      | [] => [[c]]
      | seg :: rest => (c :: seg) :: rest

/-- `Array.prototype.join` on an array of strings. -/
def join (sep : JSString) : List JSString → JSString
  | [] => []
  | [x] => x
  | x :: y :: rest => x ++ sep ++ join sep (y :: rest)

/-- JavaScript truthiness of a value that is absent or a string. -/
def truthy : Option JSString → Bool
  | none => false
  | some s => !s.isEmpty

/-- The string held by a field known to be present. -/
def str (v : Option JSString) : JSString :=
  v.getD []

/-! ## Data model (`models/Blog.js`) -/

/-- The `status` enum of the schema. -/
inductive Status where
  | draft
  | published
  deriving DecidableEq, Repr

/-- A store identifier (a 12-byte `ObjectId`, read as a number). -/
abbrev ObjectId := Nat

/-- A stored post document, with the fields the schema declares.  (The `createdAt` and
`updatedAt` pair that `timestamps: true` adds is managed by the library alone, is not
read by any handler and is left out by the list projection; it is not modelled.) -/
structure Blog where
  _id : ObjectId
  title : JSString
  content : JSString
  tags : List JSString
  status : Status
  created_at : Nat
  updated_at : Nat
  deriving DecidableEq, Repr

/-- The collection of stored posts, in insertion order. -/
abbrev Store := List Blog

/-- The clock readings one request can take: `new Date()` in the route handler,
`Date.now` for schema defaults, and `new Date()` in the `pre('save')` hook. -/
structure Clock where
  handlerNow : Nat
  defaultNow : Nat
  saveHookNow : Nat
  deriving DecidableEq, Repr

/-- The object the handlers pass to the store (`update`, and `{...update, status}`). -/
structure Update where
  title : JSString
  content : JSString
  tags : List JSString
  status : Option Status
  updated_at : Nat
  deriving DecidableEq, Repr

/-- Errors the store layer throws. -/
inductive StoreError where
  | validation
  | cast
  deriving DecidableEq, Repr

/-- The schema's `trim: true` setter on a string path. -/
def trimSetter (v : JSString) : JSString :=
  if v.isEmpty then v else trim v

/-- The schema's `required: true` validator on a string path. -/
def requiredOk (v : JSString) : Bool :=
  !v.isEmpty

/-- The schema's `maxlength: 120` validator on `title`. -/
def maxlengthOk (v : JSString) : Bool :=
  decide (v.length ≤ 120)

/-- Value of one hexadecimal digit. -/
def hexValue (c : CodeUnit) : Option Nat :=
  if 48 ≤ c ∧ c ≤ 57 then some (c - 48)
  else if 97 ≤ c ∧ c ≤ 102 then some (c - 87)
  else if 65 ≤ c ∧ c ≤ 70 then some (c - 55)
  else none

/-- Reads a string of hexadecimal digits, most significant first. -/
def parseHex : JSString → Nat → Option Nat
  | [], acc => some acc
  | c :: cs, acc =>
    match hexValue c with
    | none => none
    | some v => parseHex cs (16 * acc + v)

/-- Casting a request's `id` string to an `ObjectId`: 24 hexadecimal digits, or a
cast error. -/
def castObjectId (s : JSString) : Option ObjectId :=
  if s.length = 24 then parseHex s 0 else none

/-- The identifiers present in the store. -/
def ids (store : Store) : List ObjectId :=
  store.map (fun b => b._id)

/-- The identifier given to a new document.  The driver's generator is abstracted by
its guarantee: the new identifier is one that no stored document has. -/
def freshId (store : Store) : ObjectId :=
  (ids store).foldr max 0 + 1

/-- `Blog.findById` on an identifier already cast. -/
def findById (oid : ObjectId) (store : Store) : Option Blog :=
  store.find? (fun b => b._id == oid)

/-- The document after `$set` of the update's fields, string paths through the
schema setters. -/
def applyUpdate (u : Update) (b : Blog) : Blog :=
  { b with
    title := trimSetter u.title
    content := trimSetter u.content
    tags := u.tags.map trimSetter
    status := u.status.getD b.status
    updated_at := u.updated_at }

/-- Replaces the first document with identifier `oid` by its updated version. -/
def updateFirst (oid : ObjectId) (u : Update) : Store → Store
  | [] => []
  | b :: rest =>
    if b._id = oid then applyUpdate u b :: rest
    else b :: updateFirst oid u rest

/-- `Blog.findByIdAndUpdate(id, update, { new: true })`: a cast error for an `id`
string that is no `ObjectId`, otherwise the updated document, or `null` when no
document has that identifier (also when `id` is absent). -/
def findByIdAndUpdate (id : Option JSString) (u : Update) (store : Store) :
    Except StoreError (Option Blog × Store) :=
  match id with
  | none => .ok (none, store)
  | some s =>
    match castObjectId s with
    | none => .error .cast
    | some oid =>
      match findById oid store with
      | none => .ok (none, store)
      | some b => .ok (some (applyUpdate u b), updateFirst oid u store)

/-- `Blog.create(doc)`: setters, defaults, validators, the `pre('save')` hook, then
the insert under a new identifier. -/
def create (clk : Clock) (u : Update) (store : Store) :
    Except StoreError (Option Blog × Store) :=
  let title := trimSetter u.title
  let content := trimSetter u.content
  if requiredOk title && maxlengthOk title && requiredOk content then
    let doc : Blog :=
      { _id := freshId store
        title := title
        content := content
        tags := u.tags.map trimSetter
        status := u.status.getD .draft
        created_at := clk.defaultNow
        updated_at := clk.saveHookNow }
    .ok (some doc, store ++ [doc])
  else .error .validation

/-! ## Post service (`routes/blogRoutes.js`) -/

/-- The JSON body of a request: each field absent or a string. -/
structure ReqBody where
  id : Option JSString
  title : Option JSString
  content : Option JSString
  tags : Option JSString
  deriving DecidableEq, Repr

/-- The JSON body of a response. -/
inductive Body where
  | error (msg : String)
  | blog (b : Blog)
  | null
  | blogs (bs : List Blog)
  deriving DecidableEq, Repr

/-- An HTTP response: status code and JSON body. -/
structure Response where
  status : Nat
  body : Body
  deriving DecidableEq, Repr

/-- The body `res.json(blog)` sends for a document or `null`. -/
def jsonOf : Option Blog → Body
  | none => .null
  | some b => .blog b

/-- The `tags` expression of both handlers:
`tags ? tags.split(',').map(tag => tag.trim()) : []`. -/
def parseTags (tags : Option JSString) : List JSString :=
  if truthy tags then (split comma (str tags)).map trim else []

/-- The handler for `POST /save-draft`: the response and the store afterwards. -/
def saveDraft (clk : Clock) (req : ReqBody) (store : Store) : Response × Store :=
  if !truthy req.title || !truthy req.content then
    (⟨400, .error "Title and content are required"⟩, store)
  else if (str req.title).length > 120 then
    (⟨400, .error "Title must be under 120 characters"⟩, store)
  else
    let update : Update :=
      { title := str req.title
        content := str req.content
        tags := parseTags req.tags
        status := none
        updated_at := clk.handlerNow }
    let result :=
      if truthy req.id then findByIdAndUpdate req.id update store
      else create clk { update with status := some .draft } store
    match result with
    | .ok (blog, store') => (⟨200, jsonOf blog⟩, store')
    | .error _ => (⟨500, .error "Failed to save draft"⟩, store)

/-- The handler for `POST /publish`: the response and the store afterwards. -/
def publish (clk : Clock) (req : ReqBody) (store : Store) : Response × Store :=
  if !truthy req.title || !truthy req.content then
    (⟨400, .error "Title and content are required"⟩, store)
  else if (str req.title).length > 120 then
    (⟨400, .error "Title must be under 120 characters"⟩, store)
  else
    let update : Update :=
      { title := str req.title
        content := str req.content
        tags := parseTags req.tags
        status := some .published
        updated_at := clk.handlerNow }
    match findByIdAndUpdate req.id update store with
    | .ok (none, _) => (⟨404, .error "Blog not found"⟩, store)
    | .ok (some blog, store') => (⟨200, .blog blog⟩, store')
    | .error _ => (⟨500, .error "Failed to publish blog"⟩, store)

/-- The two guards at the top of both handlers: `!title || !content`, then
`title.length > 120`. -/
def rejected (req : ReqBody) : Bool :=
  !truthy req.title || !truthy req.content || decide ((str req.title).length > 120)

/-! ## Editor (`components/BlogEditor.js`) -/

/-- The editor's `formData`. -/
structure FormData where
  title : JSString
  content : JSString
  tags : JSString
  deriving DecidableEq, Repr

/-- The `errors` object built by `validateForm`: a message per field, when set. -/
structure ValidationErrors where
  title : Option String
  content : Option String
  tags : Option String
  deriving DecidableEq, Repr

/-- `Object.keys(errors)`. -/
def ValidationErrors.keys (e : ValidationErrors) : List String :=
  (if e.title.isSome then ["title"] else []) ++
  (if e.content.isSome then ["content"] else []) ++
  (if e.tags.isSome then ["tags"] else [])

/-- The `errors` object `validateForm` builds and passes to `setValidationErrors`. -/
def validationErrors (f : FormData) : ValidationErrors :=
  { title :=
      if (trim f.title).isEmpty then some "Title is required"
      else if f.title.length > 120 then some "Title must be under 120 characters"
      else none
    content :=
      if (trim f.content).isEmpty then some "Content is required" else none
    tags :=
      if !f.tags.isEmpty && (split comma f.tags).any (fun tag => decide ((trim tag).length > 30))
      then some "Each tag must be under 30 characters"
      else none }

/-- The boolean `validateForm` returns: `Object.keys(errors).length === 0`. -/
def validateForm (f : FormData) : Bool :=
  (validationErrors f).keys.length == 0

/-- The form `fetchBlog` sets from a loaded post. -/
def fetchBlogForm (b : Blog) : FormData :=
  { title := b.title
    content := b.content
    tags := join [comma, space] b.tags }

/-- The body `{ id, ...formData }` the editor posts to save-draft and publish. -/
def requestBody (id : Option JSString) (f : FormData) : ReqBody :=
  { id := id
    title := some f.title
    content := some f.content
    tags := some f.tags }


/-! ## Post service: list and get (`routes/blogRoutes.js`) -/

/-- The order of `.sort({ updated_at: -1 })`: later `updated_at` first. -/
def updatedAtDesc (a b : Blog) : Prop :=
  b.updated_at ≤ a.updated_at

instance (a b : Blog) : Decidable (updatedAtDesc a b) :=
  inferInstanceAs (Decidable (b.updated_at ≤ a.updated_at))

/-- `Blog.find().sort({ updated_at: -1 })`: the stored documents, later `updated_at`
first, documents with equal `updated_at` in the order of the collection. -/
def findSorted (store : Store) : List Blog :=
  store.insertionSort updatedAtDesc

/-- The handler for `GET /`.  The projection keeps `_id` and every field of `Blog`, so
it returns the documents as they are. -/
def list (store : Store) : Response × Store :=
  (⟨200, .blogs (findSorted store)⟩, store)

/-- The handler for `GET /:id`, where `id` is the route parameter. -/
def getById (id : JSString) (store : Store) : Response × Store :=
  match castObjectId id with
  | none => (⟨500, .error "Failed to fetch blog"⟩, store)
  | some oid =>
    match findById oid store with
    | none => (⟨404, .error "Blog not found"⟩, store)
    | some blog => (⟨200, .blog blog⟩, store)

/-- A request to one of the four operations of the service. -/
inductive ServiceRequest where
  | saveDraft (req : ReqBody)
  | publish (req : ReqBody)
  | list
  | getById (id : JSString)
  deriving DecidableEq, Repr

/-- The service: the handler of the operation asked for. -/
def serve (clk : Clock) (r : ServiceRequest) (store : Store) : Response × Store :=
  match r with
  | .saveDraft req => saveDraft clk req store
  | .publish req => publish clk req store
  | .list => list store
  | .getById id => getById id store

/-! ## Editor state and save handlers (`components/BlogEditor.js`) -/

/-- The `type` of a notification. -/
inductive NotificationType where
  | success
  | error
  deriving DecidableEq, Repr

/-- The object `showNotification` stores: `{ message, type }`. -/
structure Notification where
  message : String
  type : NotificationType
  deriving DecidableEq, Repr

/-- The state of the editor component: the route parameter `id` and the values of
its `useState` hooks.  An entry of `validationErrors` that is `null` and a missing
entry are the same `none`. -/
structure EditorState where
  id : Option JSString
  formData : FormData
  loading : Bool
  error : Option String
  lastSaved : Option Nat
  isDirty : Bool
  wordCount : Nat
  validationErrors : ValidationErrors
  notification : Option Notification
  deriving DecidableEq, Repr

/-- How an `axios.post` ends: the promise resolves with `response.data`, or it rejects
(no answer, or an answer with a status outside 2xx). -/
inductive HttpResult where
  | resolved (data : Body)
  | rejected
  deriving DecidableEq, Repr

/-- A target of `navigate`: the edit route with the `_id` read from the answer
(`none` when the answer has no `_id`). -/
inductive Route where
  | edit (id : Option ObjectId)
  deriving DecidableEq, Repr

/-- What a handler did besides setting state: the bodies it posted to
`/api/blogs/save-draft` and the routes it navigated to. -/
structure Effects where
  requests : List ReqBody
  navigations : List Route
  deriving DecidableEq, Repr

/-- How an `async` function ends. -/
inductive Completion where
  | normal
  | threw
  deriving DecidableEq, Repr

/-- The body of `autoSave`, run in the closure of the render state `s` while the
pending state is `st`: the guard `!isDirty || !validateForm()` (where `validateForm`
stores the errors it found), then the post inside `try`, with every failure of the
`try` block handled by its own `catch`. -/
def autoSaveFrom (now : Nat) (post : ReqBody → HttpResult) (s st : EditorState) :
    Completion × EditorState × Effects :=
  if !s.isDirty then (.normal, st, ⟨[], []⟩)
  else
    let st1 := { st with validationErrors := validationErrors s.formData }
    if !validateForm s.formData then (.normal, st1, ⟨[], []⟩)
    else
      let body := requestBody s.id s.formData
      let failed : EditorState → EditorState := fun t =>
        { t with
          error := some "Auto-save failed. Please try saving manually."
          notification := some ⟨"Auto-save failed", .error⟩ }
      let saved : EditorState → EditorState := fun t =>
        { t with notification := some ⟨"Draft saved automatically", .success⟩ }
      match post body with
      | .rejected => (.normal, failed st1, ⟨[body], []⟩)
      | .resolved data =>
        let st2 := { st1 with lastSaved := some now, isDirty := false }
        if !truthy s.id then
          match data with
          | .null => (.normal, failed st2, ⟨[body], []⟩)
          | .blog b => (.normal, saved st2, ⟨[body], [.edit (some b._id)]⟩)
          | _ => (.normal, saved st2, ⟨[body], [.edit none]⟩)
        else (.normal, saved st2, ⟨[body], []⟩)

/-- The auto-save callback fired by the timer on the state `s`. -/
def autoSave (now : Nat) (post : ReqBody → HttpResult) (s : EditorState) :
    EditorState × Effects :=
  (autoSaveFrom now post s s).2

/-- The manual save handler `handleSave` on the state `s`. -/
def handleSave (now : Nat) (post : ReqBody → HttpResult) (s : EditorState) :
    EditorState × Effects :=
  let st0 := { s with validationErrors := validationErrors s.formData }
  if !validateForm s.formData then
    ({ st0 with
        notification := some ⟨"Please fix the validation errors before saving", .error⟩ },
      ⟨[], []⟩)
  else
    let st1 := { st0 with loading := true }
    match autoSaveFrom now post s st1 with
    | (.normal, st2, eff) =>
      ({ st2 with
          error := none
          notification := some ⟨"Draft saved successfully", .success⟩
          loading := false }, eff)
    | (.threw, st2, eff) =>
      ({ st2 with
          error := some "Failed to save. Please try again."
          notification := some ⟨"Failed to save draft", .error⟩
          loading := false }, eff)

/-- An editor on `/new` with a valid form (`"a"`, `"x"`, no tags) that has unsaved
edits. -/
def dirtyEditor : EditorState :=
  { id := none, formData := ⟨[97], [120], []⟩, loading := false, error := none,
    lastSaved := none, isDirty := true, wordCount := 1,
    validationErrors := ⟨none, none, none⟩, notification := none }

/-- An editor on `/new` whose form was edited and emptied again: unsaved edits, no
validation error shown. -/
def emptiedEditor : EditorState :=
  { id := none, formData := ⟨[], [], []⟩, loading := false, error := none,
    lastSaved := none, isDirty := true, wordCount := 0,
    validationErrors := ⟨none, none, none⟩, notification := none }

/-! ## The spec's wording for tags -/

/-- Spec wording, "split on every comma": `segs` are the pieces of `s` between
consecutive separators, in order: none contains the separator, and putting the
separator back between them gives `s`. -/
def IsSplitOf (sep : CodeUnit) (s : JSString) (segs : List JSString) : Prop :=
  segs ≠ [] ∧ (∀ seg ∈ segs, sep ∉ seg) ∧ join [sep] segs = s

/-- A string with no white space at either end. -/
def Trimmed (t : JSString) : Prop :=
  (∀ c, t.head? = some c → isWhiteSpace c = false) ∧
  (∀ c, t.getLast? = some c → isWhiteSpace c = false)

/-- Spec wording, "trimmed of leading and trailing whitespace": `tag` has no white
space at either end and `seg` is `tag` between two runs of white space. -/
def IsTrimOf (seg tag : JSString) : Prop :=
  Trimmed tag ∧
    ∃ pre post : JSString, seg = pre ++ tag ++ post ∧
      (∀ c ∈ pre, isWhiteSpace c = true) ∧ (∀ c ∈ post, isWhiteSpace c = true)

/-- Spec wording, "no published→draft transition": every record that is published in
`store` is still there in `store'`, at the same place and under the same identifier,
and is still published. -/
def PublishedKept (store store' : Store) : Prop :=
  ∀ (k : Nat) (b : Blog), store[k]? = some b → b.status = .published →
    ∃ b' : Blog, store'[k]? = some b' ∧ b'._id = b._id ∧ b'.status = .published

/-! ## Sample data -/

/-- The id string `"000000000000000000000001"`, which casts to the identifier 1. -/
def idOne : JSString := List.replicate 23 48 ++ [49]

/-- The id string `"000000000000000000000002"`, which casts to the identifier 2. -/
def idTwo : JSString := List.replicate 23 48 ++ [50]

/-- A stored draft with identifier 1, title `"a"` and content `"x"`. -/
def draftPost : Blog :=
  { _id := 1, title := [97], content := [120], tags := [], status := .draft,
    created_at := 0, updated_at := 3 }

/-- A stored published post with identifier 1, title `"a"` and content `"x"`. -/
def publishedPost : Blog :=
  { _id := 1, title := [97], content := [120], tags := [], status := .published,
    created_at := 0, updated_at := 3 }

/-! ## Basic facts -/

theorem truthy_eq_false_iff (v : Option JSString) :
    truthy v = false ↔ v = none ∨ v = some [] := by
  cases v with
  | none => simp [truthy]
  | some s => cases s <;> simp [truthy]

theorem truthy_eq_true_iff (v : Option JSString) :
    truthy v = true ↔ ∃ s, v = some s ∧ s ≠ [] := by
  cases v with
  | none => simp [truthy]
  | some s => cases s <;> simp [truthy]

theorem rejected_iff (req : ReqBody) :
    rejected req = true ↔
      (req.title = none ∨ req.title = some []) ∨ (req.content = none ∨ req.content = some []) ∨
        ∃ t, req.title = some t ∧ t.length > 120 := by
  unfold rejected
  have key : (str req.title).length > 120 ↔ ∃ t, req.title = some t ∧ t.length > 120 := by
    cases req.title <;> simp [str]
  simp only [Bool.or_eq_true, Bool.not_eq_true', truthy_eq_false_iff, decide_eq_true_eq, key]
  tauto

theorem saveDraft_of_rejected (clk : Clock) (req : ReqBody) (store : Store)
    (h : rejected req = true) :
    (saveDraft clk req store).1.status = 400 ∧ (saveDraft clk req store).2 = store := by
  unfold rejected at h
  unfold saveDraft
  by_cases h1 : (!truthy req.title || !truthy req.content) = true
  · simp [h1]
  · by_cases h2 : (str req.title).length > 120
    · simp [h1, h2]
    · simp [h1, h2] at h

theorem saveDraft_of_not_rejected (clk : Clock) (req : ReqBody) (store : Store)
    (h : rejected req = false) :
    saveDraft clk req store =
      match (if truthy req.id then
          findByIdAndUpdate req.id
            { title := str req.title, content := str req.content, tags := parseTags req.tags,
              status := none, updated_at := clk.handlerNow } store
        else
          create clk
            { title := str req.title, content := str req.content, tags := parseTags req.tags,
              status := some .draft, updated_at := clk.handlerNow } store) with
      | .ok (blog, store') => (⟨200, jsonOf blog⟩, store')
      | .error _ => (⟨500, .error "Failed to save draft"⟩, store) := by
  unfold rejected at h
  simp only [Bool.or_eq_false_iff, decide_eq_false_iff_not] at h
  obtain ⟨⟨h1, h2⟩, h3⟩ := h
  unfold saveDraft
  simp [h1, h2, h3]

theorem publish_of_rejected (clk : Clock) (req : ReqBody) (store : Store)
    (h : rejected req = true) :
    (publish clk req store).1.status = 400 ∧ (publish clk req store).2 = store := by
  unfold rejected at h
  unfold publish
  by_cases h1 : (!truthy req.title || !truthy req.content) = true
  · simp [h1]
  · by_cases h2 : (str req.title).length > 120
    · simp [h1, h2]
    · simp [h1, h2] at h

theorem publish_of_not_rejected (clk : Clock) (req : ReqBody) (store : Store)
    (h : rejected req = false) :
    publish clk req store =
      match findByIdAndUpdate req.id
          { title := str req.title, content := str req.content, tags := parseTags req.tags,
            status := some .published, updated_at := clk.handlerNow } store with
      | .ok (none, _) => (⟨404, .error "Blog not found"⟩, store)
      | .ok (some blog, store') => (⟨200, .blog blog⟩, store')
      | .error _ => (⟨500, .error "Failed to publish blog"⟩, store) := by
  unfold rejected at h
  simp only [Bool.or_eq_false_iff, decide_eq_false_iff_not] at h
  obtain ⟨⟨h1, h2⟩, h3⟩ := h
  unfold publish
  simp [h1, h2, h3]

theorem saveDraft_status_of_not_rejected (clk : Clock) (req : ReqBody) (store : Store)
    (h : rejected req = false) :
    (saveDraft clk req store).1.status = 200 ∨ (saveDraft clk req store).1.status = 500 := by
  rw [saveDraft_of_not_rejected clk req store h]
  split <;> simp

theorem publish_status_of_not_rejected (clk : Clock) (req : ReqBody) (store : Store)
    (h : rejected req = false) :
    (publish clk req store).1.status = 200 ∨ (publish clk req store).1.status = 404 ∨
      (publish clk req store).1.status = 500 := by
  rw [publish_of_not_rejected clk req store h]
  split <;> simp

/-! ## Trimming -/

theorem trimStart_final (s : JSString) : trimStart s <:+ s :=
  List.dropWhile_suffix isWhiteSpace

theorem trimEnd_initial (s : JSString) : trimEnd s <+: s :=
  List.rdropWhile_prefix isWhiteSpace s

theorem trim_sublist (s : JSString) : List.Sublist (trim s) s :=
  (trimEnd_initial (trimStart s)).sublist.trans (trimStart_final s).sublist

theorem trim_length_le (s : JSString) : (trim s).length ≤ s.length :=
  (trim_sublist s).length_le

theorem mem_of_mem_trim {c : CodeUnit} {s : JSString} (h : c ∈ trim s) : c ∈ s :=
  (trim_sublist s).subset h

theorem trim_nil : trim [] = [] := rfl

/-- The first code unit of a trimmed string is not white space. -/
theorem trim_head_not_ws (s : JSString) (c : CodeUnit) (t : JSString)
    (h : trim s = c :: t) : isWhiteSpace c = false := by
  obtain ⟨r, hr⟩ := trimEnd_initial (trimStart s)
  have h2 : trimStart s = c :: (t ++ r) := by
    rw [← hr]; show trim s ++ r = _; rw [h]; rfl
  have hpos : 0 < (List.dropWhile isWhiteSpace s).length := by
    show 0 < (trimStart s).length
    rw [h2]; simp
  have := List.dropWhile_get_zero_not isWhiteSpace s hpos
  have hget : (List.dropWhile isWhiteSpace s).get ⟨0, hpos⟩ = c := by
    have : List.dropWhile isWhiteSpace s = c :: (t ++ r) := h2
    simp [this]
  rw [hget] at this
  simpa using this

/-- The last code unit of a trimmed string is not white space. -/
theorem trim_last_not_ws (s : JSString) (h : trim s ≠ []) :
    isWhiteSpace ((trim s).getLast h) = false := by
  have := List.rdropWhile_last_not isWhiteSpace (trimStart s) h
  simpa using this

theorem trimStart_eq_self {s : JSString} (h : ∀ c t, s = c :: t → isWhiteSpace c = false) :
    trimStart s = s := by
  cases s with
  | nil => rfl
  | cons c t => simp [trimStart, List.dropWhile, h c t rfl]

theorem trimEnd_eq_self {s : JSString} (h : ∀ hs : s ≠ [], isWhiteSpace (s.getLast hs) = false) :
    trimEnd s = s := by
  show List.rdropWhile isWhiteSpace s = s
  rw [List.rdropWhile_eq_self_iff]
  intro hl
  simp [h hl]

theorem trim_idem (s : JSString) : trim (trim s) = trim s := by
  have h1 : trimStart (trim s) = trim s :=
    trimStart_eq_self (fun c t h => trim_head_not_ws s c t h)
  show trimEnd (trimStart (trim s)) = trim s
  rw [h1]
  exact trimEnd_eq_self (fun hs => trim_last_not_ws s hs)

theorem trim_eq_nil_iff (s : JSString) : trim s = [] ↔ ∀ c ∈ s, isWhiteSpace c = true := by
  show List.rdropWhile isWhiteSpace (List.dropWhile isWhiteSpace s) = [] ↔ _
  rw [List.rdropWhile_eq_nil_iff]
  constructor
  · intro h
    have h2 : List.dropWhile isWhiteSpace (List.dropWhile isWhiteSpace s) = [] :=
      List.dropWhile_eq_nil_iff.2 h
    rw [List.dropWhile_idempotent] at h2
    exact List.dropWhile_eq_nil_iff.1 h2
  · intro h c hc
    exact h c ((List.dropWhile_subset isWhiteSpace) hc)

theorem trim_cons_ws (c : CodeUnit) (s : JSString) (h : isWhiteSpace c = true) :
    trim (c :: s) = trim s := by
  simp [trim, trimStart, List.dropWhile, h]

theorem trimSetter_eq_trim (v : JSString) : trimSetter v = trim v := by
  cases v with
  | nil => rfl
  | cons c t => simp [trimSetter]

theorem map_trimSetter_map_trim (l : List JSString) :
    (l.map trim).map trimSetter = l.map trim := by
  simp [List.map_map, Function.comp_def, trimSetter_eq_trim, trim_idem]

theorem map_trimSetter_parseTags (tags : Option JSString) :
    (parseTags tags).map trimSetter = parseTags tags := by
  unfold parseTags
  split
  · exact map_trimSetter_map_trim _
  · rfl

/-! ## Store facts -/

theorem le_foldr_max {l : List Nat} {n : Nat} (h : n ∈ l) : n ≤ l.foldr max 0 := by
  induction l with
  | nil => cases h
  | cons a t ih =>
    rcases List.mem_cons.1 h with h | h
    · subst h; exact Nat.le_max_left _ _
    · exact Nat.le_trans (ih h) (Nat.le_max_right _ _)

theorem freshId_not_mem (store : Store) : freshId store ∉ ids store := by
  intro h
  have := le_foldr_max h
  unfold freshId at this
  omega

theorem create_ok (clk : Clock) (u : Update) (store : Store)
    (ht : trim u.title ≠ []) (hl : u.title.length ≤ 120) (hc : trim u.content ≠ []) :
    create clk u store =
      .ok (some
        { _id := freshId store, title := trim u.title, content := trim u.content,
          tags := u.tags.map trimSetter, status := u.status.getD .draft,
          created_at := clk.defaultNow, updated_at := clk.saveHookNow },
        store ++ [
        { _id := freshId store, title := trim u.title, content := trim u.content,
          tags := u.tags.map trimSetter, status := u.status.getD .draft,
          created_at := clk.defaultNow, updated_at := clk.saveHookNow }]) := by
  have hl2 : (trim u.title).length ≤ 120 := Nat.le_trans (trim_length_le _) hl
  unfold create
  simp [trimSetter_eq_trim, requiredOk, maxlengthOk, ht, hc, hl2]

/-! ## Update by id -/

theorem castObjectId_ne_nil {s : JSString} {i : ObjectId} (h : castObjectId s = some i) :
    s ≠ [] := by
  rintro rfl
  simp [castObjectId] at h

theorem truthy_of_cast {s : JSString} {i : ObjectId} (h : castObjectId s = some i) :
    truthy (some s) = true :=
  (truthy_eq_true_iff _).2 ⟨s, rfl, castObjectId_ne_nil h⟩

theorem findById_nil (i : ObjectId) : findById i [] = none := rfl

theorem findById_cons (i : ObjectId) (a : Blog) (t : Store) :
    findById i (a :: t) = if a._id = i then some a else findById i t := by
  by_cases ha : a._id = i
  · simp [findById, List.find?_cons, ha]
  · have : (a._id == i) = false := by simpa using ha
    simp [findById, List.find?_cons, this, ha]

/-- A successful lookup splits the store around the first record with that id. -/
theorem findById_eq_some {i : ObjectId} {store : Store} {b : Blog}
    (h : findById i store = some b) :
    b._id = i ∧ ∃ pre post, store = pre ++ b :: post ∧ ∀ x ∈ pre, x._id ≠ i := by
  induction store with
  | nil => simp [findById_nil] at h
  | cons a t ih =>
    rw [findById_cons] at h
    by_cases ha : a._id = i
    · rw [if_pos ha] at h
      cases h
      exact ⟨ha, [], t, rfl, by simp⟩
    · rw [if_neg ha] at h
      obtain ⟨hb, pre, post, hst, hpre⟩ := ih h
      refine ⟨hb, a :: pre, post, by simp [hst], ?_⟩
      intro x hx
      rcases List.mem_cons.1 hx with hx | hx
      · subst hx; exact ha
      · exact hpre x hx

theorem findById_eq_none {i : ObjectId} {store : Store} :
    findById i store = none ↔ i ∉ ids store := by
  induction store with
  | nil => simp [findById_nil, ids]
  | cons a t ih =>
    rw [findById_cons]
    by_cases ha : a._id = i
    · simp [ha, ids]
    · have hne : ¬ i = a._id := fun e => ha e.symm
      simp only [if_neg ha, ih, ids, List.map_cons, List.mem_cons, not_or, hne, not_false_eq_true,
        true_and]

theorem findById_append_cons {i : ObjectId} (pre post : Store) (b : Blog)
    (hpre : ∀ x ∈ pre, x._id ≠ i) (hb : b._id = i) :
    findById i (pre ++ b :: post) = some b := by
  induction pre with
  | nil => simp [findById_cons, hb]
  | cons a t ih =>
    have ha : a._id ≠ i := hpre a (List.mem_cons_self _ _)
    have := ih (fun x hx => hpre x (List.mem_cons_of_mem _ hx))
    rw [List.cons_append, findById_cons, if_neg ha, this]

theorem updateFirst_append_cons {i : ObjectId} (u : Update) (pre post : Store) (b : Blog)
    (hpre : ∀ x ∈ pre, x._id ≠ i) (hb : b._id = i) :
    updateFirst i u (pre ++ b :: post) = pre ++ applyUpdate u b :: post := by
  induction pre with
  | nil => simp [updateFirst, hb]
  | cons a t ih =>
    have ha : a._id ≠ i := hpre a (List.mem_cons_self _ _)
    have := ih (fun x hx => hpre x (List.mem_cons_of_mem _ hx))
    simp [updateFirst, ha, this]

theorem updateFirst_of_not_mem {i : ObjectId} (u : Update) (store : Store)
    (h : i ∉ ids store) : updateFirst i u store = store := by
  induction store with
  | nil => rfl
  | cons a t ih =>
    have ha : a._id ≠ i := by
      intro e; apply h; simp [ids, e.symm]
    have ht : i ∉ ids t := by
      intro e; apply h; simp only [ids, List.map_cons, List.mem_cons]; exact Or.inr e
    simp [updateFirst, ha, ih ht]

theorem ids_updateFirst (i : ObjectId) (u : Update) (store : Store) :
    ids (updateFirst i u store) = ids store := by
  induction store with
  | nil => rfl
  | cons a t ih =>
    by_cases ha : a._id = i
    · simp [updateFirst, ha, ids, applyUpdate]
    · simp only [updateFirst, ha, if_false, ids, List.map_cons] at ih ⊢
      rw [ih]

theorem findByIdAndUpdate_found {s : JSString} {i : ObjectId} {store : Store} {b : Blog}
    (u : Update) (hcast : castObjectId s = some i) (hfind : findById i store = some b) :
    findByIdAndUpdate (some s) u store = .ok (some (applyUpdate u b), updateFirst i u store) := by
  simp [findByIdAndUpdate, hcast, hfind]

theorem findByIdAndUpdate_unknown {s : JSString} {i : ObjectId} {store : Store}
    (u : Update) (hcast : castObjectId s = some i) (hfind : findById i store = none) :
    findByIdAndUpdate (some s) u store = .ok (none, store) := by
  simp [findByIdAndUpdate, hcast, hfind]

theorem findByIdAndUpdate_malformed {s : JSString} {store : Store}
    (u : Update) (hcast : castObjectId s = none) :
    findByIdAndUpdate (some s) u store = .error .cast := by
  simp [findByIdAndUpdate, hcast]

/-- A request that passes both guards, in plain terms. -/
theorem rejected_eq_false {req : ReqBody} {title content : JSString}
    (ht : req.title = some title) (htne : title ≠ []) (hlen : title.length ≤ 120)
    (hc : req.content = some content) (hcne : content ≠ []) : rejected req = false := by
  cases hr : rejected req with
  | false => rfl
  | true =>
    rcases (rejected_iff req).1 hr with (h | h) | (h | h) | ⟨t, h1, h2⟩
    · rw [ht] at h; cases h
    · rw [ht] at h; exact absurd (Option.some.inj h) htne
    · rw [hc] at h; cases h
    · rw [hc] at h; exact absurd (Option.some.inj h) hcne
    · rw [ht] at h1; cases h1; omega

/-! ## Splitting and joining -/

theorem split_ne_nil (sep : CodeUnit) (s : JSString) : split sep s ≠ [] := by
  cases s with
  | nil => simp [split]
  | cons c cs =>
    unfold split
    split_ifs
    · simp
    · split <;> simp

theorem split_cons_sep (sep : CodeUnit) (cs : JSString) :
    split sep (sep :: cs) = [] :: split sep cs := by
  simp [split]

theorem split_cons_ne {sep c : CodeUnit} (h : c ≠ sep) (cs seg : JSString)
    (rest : List JSString) (hs : split sep cs = seg :: rest) :
    split sep (c :: cs) = (c :: seg) :: rest := by
  rw [split, if_neg h, hs]

theorem split_of_not_mem {sep : CodeUnit} {x : JSString} (h : sep ∉ x) :
    split sep x = [x] := by
  induction x with
  | nil => rfl
  | cons c cs ih =>
    have hc : c ≠ sep := fun e => h (by simp [e])
    have hcs : sep ∉ cs := fun e => h (List.mem_cons_of_mem _ e)
    exact split_cons_ne hc cs cs [] (ih hcs)

theorem split_append_sep {sep : CodeUnit} {x : JSString} (h : sep ∉ x) (r : JSString) :
    split sep (x ++ sep :: r) = x :: split sep r := by
  induction x with
  | nil => exact split_cons_sep sep r
  | cons c cs ih =>
    have hc : c ≠ sep := fun e => h (by simp [e])
    have hcs : sep ∉ cs := fun e => h (List.mem_cons_of_mem _ e)
    exact split_cons_ne hc _ cs _ (ih hcs)

theorem not_mem_of_mem_split {sep : CodeUnit} {s seg : JSString}
    (h : seg ∈ split sep s) : sep ∉ seg := by
  induction s generalizing seg with
  | nil =>
    simp [split] at h
    subst h; simp
  | cons c cs ih =>
    obtain ⟨x, rest, hx⟩ := List.exists_cons_of_ne_nil (split_ne_nil sep cs)
    by_cases hc : c = sep
    · subst hc
      rw [split_cons_sep] at h
      rcases List.mem_cons.1 h with h | h
      · subst h; simp
      · exact ih h
    · rw [split_cons_ne hc cs x rest hx] at h
      rcases List.mem_cons.1 h with h | h
      · subst h
        have hxn : sep ∉ x := ih (by rw [hx]; exact List.mem_cons_self _ _)
        intro hm
        rcases List.mem_cons.1 hm with e | e
        · exact hc e.symm
        · exact hxn e
      · exact ih (by rw [hx]; exact List.mem_cons_of_mem _ h)

theorem join_cons_cons_head (sep : JSString) (c : CodeUnit) (seg : JSString)
    (rest : List JSString) :
    join sep ((c :: seg) :: rest) = c :: join sep (seg :: rest) := by
  cases rest with
  | nil => rfl
  | cons y r => simp [join]

theorem join_split (sep : CodeUnit) (s : JSString) : join [sep] (split sep s) = s := by
  induction s with
  | nil => rfl
  | cons c cs ih =>
    obtain ⟨x, rest, hx⟩ := List.exists_cons_of_ne_nil (split_ne_nil sep cs)
    by_cases hc : c = sep
    · subst hc
      rw [split_cons_sep, hx, join, ← hx, ih]
      rfl
    · rw [split_cons_ne hc cs x rest hx, join_cons_cons_head, ← hx, ih]

theorem length_split (sep : CodeUnit) (s : JSString) :
    (split sep s).length = s.count sep + 1 := by
  induction s with
  | nil => rfl
  | cons c cs ih =>
    obtain ⟨x, rest, hx⟩ := List.exists_cons_of_ne_nil (split_ne_nil sep cs)
    by_cases hc : c = sep
    · subst hc
      rw [split_cons_sep, List.length_cons, ih, List.count_cons_self]
    · rw [split_cons_ne hc cs x rest hx, List.count_cons_of_ne (fun e => hc e.symm), ← ih, hx]
      rfl

theorem isSplitOf_split (sep : CodeUnit) (s : JSString) : IsSplitOf sep s (split sep s) :=
  ⟨split_ne_nil sep s, fun _ h => not_mem_of_mem_split h, join_split sep s⟩

/-- The spec's wording determines the segments: they are what `split` returns. -/
theorem eq_split_of_isSplitOf {sep : CodeUnit} {s : JSString} {segs : List JSString}
    (h : IsSplitOf sep s segs) : segs = split sep s := by
  obtain ⟨hne, hmem, hjoin⟩ := h
  subst hjoin
  induction segs with
  | nil => exact absurd rfl hne
  | cons x rest ih =>
    have hx : sep ∉ x := hmem x (List.mem_cons_self _ _)
    cases rest with
    | nil => exact (split_of_not_mem hx).symm
    | cons y r =>
      have := ih (by simp) (fun seg hs => hmem seg (List.mem_cons_of_mem _ hs))
      show x :: y :: r = split sep (x ++ [sep] ++ join [sep] (y :: r))
      rw [List.append_assoc, List.singleton_append, split_append_sep hx, ← this]

/-! ## Trimming, in the spec's words -/

theorem trimmed_trim (s : JSString) : Trimmed (trim s) := by
  constructor
  · intro c hc
    cases ht : trim s with
    | nil => rw [ht] at hc; cases hc
    | cons a t =>
      rw [ht] at hc
      cases hc
      exact trim_head_not_ws s _ t ht
  · intro c hc
    by_cases ht : trim s = []
    · rw [ht] at hc; cases hc
    · rw [List.getLast?_eq_getLast _ ht] at hc
      cases hc
      exact trim_last_not_ws s ht

theorem trimEnd_append_trailing (a : JSString) :
    trimEnd a ++ (List.takeWhile isWhiteSpace a.reverse).reverse = a := by
  unfold trimEnd
  rw [← List.reverse_append, List.takeWhile_append_dropWhile, List.reverse_reverse]

theorem isTrimOf_trim (seg : JSString) : IsTrimOf seg (trim seg) := by
  refine ⟨trimmed_trim seg, List.takeWhile isWhiteSpace seg,
    (List.takeWhile isWhiteSpace (trimStart seg).reverse).reverse, ?_, ?_, ?_⟩
  · rw [List.append_assoc]
    show seg = _ ++ (trimEnd (trimStart seg) ++ _)
    rw [trimEnd_append_trailing]
    exact (List.takeWhile_append_dropWhile isWhiteSpace seg).symm
  · intro c hc
    exact List.mem_takeWhile_imp hc
  · intro c hc
    exact List.mem_takeWhile_imp (List.mem_reverse.1 hc)

theorem trim_eq_self_of_trimmed {t : JSString} (h : Trimmed t) : trim t = t := by
  have h1 : trimStart t = t :=
    trimStart_eq_self (fun c r e => h.1 c (by rw [e]; rfl))
  show trimEnd (trimStart t) = t
  rw [h1]
  exact trimEnd_eq_self (fun hs => h.2 _ (List.getLast?_eq_getLast _ hs))

theorem trimStart_append_ws (pre t : JSString) (hpre : ∀ c ∈ pre, isWhiteSpace c = true) :
    trimStart (pre ++ t) = trimStart t := by
  induction pre with
  | nil => rfl
  | cons c cs ih =>
    have hc := hpre c (List.mem_cons_self _ _)
    have := ih (fun x hx => hpre x (List.mem_cons_of_mem _ hx))
    simpa [trimStart, List.dropWhile, hc] using this

theorem trimEnd_append_ws (t post : JSString) (hpost : ∀ c ∈ post, isWhiteSpace c = true) :
    trimEnd (t ++ post) = trimEnd t := by
  unfold trimEnd
  rw [List.reverse_append]
  congr 1
  exact trimStart_append_ws post.reverse t.reverse (fun c hc => hpost c (List.mem_reverse.1 hc))

/-- The spec's wording determines the tag: it is what `trim` returns. -/
theorem eq_trim_of_isTrimOf {seg tag : JSString} (h : IsTrimOf seg tag) : tag = trim seg := by
  obtain ⟨ht, pre, post, hseg, hpre, hpost⟩ := h
  have h1 : trimStart tag = tag := trimStart_eq_self (fun c r e => ht.1 c (by rw [e]; rfl))
  have h2 : trimEnd tag = tag :=
    trimEnd_eq_self (fun hs => ht.2 _ (List.getLast?_eq_getLast _ hs))
  subst hseg
  show tag = trimEnd (trimStart (pre ++ tag ++ post))
  by_cases hnil : tag = []
  · subst hnil
    have hall : ∀ c ∈ pre ++ [] ++ post, isWhiteSpace c = true := by
      intro c hc
      simp only [List.append_nil, List.mem_append] at hc
      exact hc.elim (hpre c) (hpost c)
    exact ((trim_eq_nil_iff _).2 hall).symm
  · rw [List.append_assoc, trimStart_append_ws pre _ hpre]
    have h3 : trimStart (tag ++ post) = tag ++ post := by
      obtain ⟨c, r, e⟩ := List.exists_cons_of_ne_nil hnil
      apply trimStart_eq_self
      intro c' r' e'
      rw [e] at e'
      cases e'
      exact ht.1 c (by rw [e]; rfl)
    rw [h3, trimEnd_append_ws tag post hpost, h2]

/-! ## Service validation (C1) -/

/-- C1: save-draft and publish each respond with HTTP 400 exactly when `title` is
missing or empty, or `content` is missing or empty, or `title` has more than 120
code units; and a 400 response leaves the store as it was. -/
theorem C1_validation_400_iff (clk : Clock) (req : ReqBody) (store : Store) :
    ((saveDraft clk req store).1.status = 400 ↔
      ((req.title = none ∨ req.title = some []) ∨ (req.content = none ∨ req.content = some []) ∨
        ∃ t, req.title = some t ∧ t.length > 120)) ∧
    ((publish clk req store).1.status = 400 ↔
      ((req.title = none ∨ req.title = some []) ∨ (req.content = none ∨ req.content = some []) ∨
        ∃ t, req.title = some t ∧ t.length > 120)) ∧
    ((saveDraft clk req store).1.status = 400 → (saveDraft clk req store).2 = store) ∧
    ((publish clk req store).1.status = 400 → (publish clk req store).2 = store) := by
  rw [← rejected_iff]
  cases h : rejected req with
  | true =>
    have hs := saveDraft_of_rejected clk req store h
    have hp := publish_of_rejected clk req store h
    exact ⟨⟨fun _ => rfl, fun _ => hs.1⟩, ⟨fun _ => rfl, fun _ => hp.1⟩, fun _ => hs.2, fun _ => hp.2⟩
  | false =>
    have hs := saveDraft_status_of_not_rejected clk req store h
    have hp := publish_status_of_not_rejected clk req store h
    refine ⟨⟨fun h4 => ?_, fun h4 => ?_⟩, ⟨fun h4 => ?_, fun h4 => ?_⟩, fun h4 => ?_, fun h4 => ?_⟩
    · omega
    · cases h4
    · omega
    · cases h4
    · omega
    · omega

/-! ## Save-draft without an id (C2) -/

/-- C2, as stated, fails: a title of one space passes the handler's guards, the
schema trims it to the empty string, `required` rejects it, and save-draft answers
500 without adding a record; and a title with a leading space is stored trimmed,
not as given. -/
theorem C2_counterexample :
    ((saveDraft ⟨0, 0, 0⟩ ⟨none, some [32], some [120], none⟩ []).1.status = 500 ∧
      (saveDraft ⟨0, 0, 0⟩ ⟨none, some [32], some [120], none⟩ []).2 = []) ∧
    (saveDraft ⟨0, 0, 0⟩ ⟨none, some [32, 97], some [120], none⟩ []).2 =
      [{ _id := 1, title := [97], content := [120], tags := [], status := .draft,
         created_at := 0, updated_at := 0 }] := by
  decide

/-- C2 (amended): for every store and every request without an id (absent or the
empty string) whose title and content are not blank after trimming and whose title
has at most 120 code units, save-draft answers 200 with a new record and appends
exactly that record to the store: its identifier is one no stored record has, its
status is draft, its title and content are the given ones trimmed, and its tags are
the parsed tag sequence (empty when no tags are given). -/
theorem C2_saveDraft_insert (clk : Clock) (req : ReqBody) (store : Store)
    (title content : JSString)
    (hid : req.id = none ∨ req.id = some [])
    (ht : req.title = some title) (hc : req.content = some content)
    (htb : trim title ≠ []) (hcb : trim content ≠ []) (hlen : title.length ≤ 120) :
    ∃ doc : Blog,
      saveDraft clk req store = (⟨200, .blog doc⟩, store ++ [doc]) ∧
      doc._id ∉ ids store ∧
      doc.status = .draft ∧
      doc.title = trim title ∧
      doc.content = trim content ∧
      doc.tags = parseTags req.tags ∧
      (req.tags = none → doc.tags = []) := by
  have htne : title ≠ [] := by rintro rfl; exact htb rfl
  have hcne : content ≠ [] := by rintro rfl; exact hcb rfl
  have hrej : rejected req = false := rejected_eq_false ht htne hlen hc hcne
  have hidf : truthy req.id = false := (truthy_eq_false_iff _).2 hid
  rw [saveDraft_of_not_rejected clk req store hrej]
  simp only [hidf, Bool.false_eq_true, if_false]
  rw [create_ok clk _ store (by simpa [ht, str] using htb) (by simpa [ht, str] using hlen)
    (by simpa [hc, str] using hcb)]
  refine ⟨_, rfl, freshId_not_mem store, rfl, by simp [ht, str], by simp [hc, str],
    map_trimSetter_parseTags _, ?_⟩
  intro hn
  simp [hn, parseTags, truthy]

/-- C2 witness: `{title: "Hello", content: "World"}` saved into the empty store. -/
theorem C2_saveDraft_insert_witness :
    ∃ doc : Blog,
      saveDraft ⟨1, 2, 3⟩ ⟨none, some [72, 101, 108, 108, 111], some [87, 111, 114, 108, 100], none⟩ [] =
        (⟨200, .blog doc⟩, [] ++ [doc]) ∧
      doc._id ∉ ids [] ∧
      doc.status = .draft ∧
      doc.title = trim [72, 101, 108, 108, 111] ∧
      doc.content = trim [87, 111, 114, 108, 100] ∧
      doc.tags = parseTags none ∧
      ((none : Option JSString) = none → doc.tags = []) :=
  C2_saveDraft_insert ⟨1, 2, 3⟩ ⟨none, some [72, 101, 108, 108, 111], some [87, 111, 114, 108, 100], none⟩ []
    [72, 101, 108, 108, 111] [87, 111, 114, 108, 100] (Or.inl rfl) rfl rfl (by decide) (by decide)
    (by decide)

/-! ## Save-draft with the id of a stored record (C3) -/

/-- C3, as stated, fails: the stored title is the request's title trimmed by the
schema, not the request's value; here `" b"` is stored as `"b"`. -/
theorem C3_counterexample :
    (saveDraft ⟨5, 5, 5⟩ ⟨some idOne, some [32, 98], some [121], none⟩ [draftPost]).2 =
      [{ _id := 1, title := [98], content := [121], tags := [], status := .draft,
         created_at := 0, updated_at := 5 }] ∧
    ([98] : JSString) ≠ [32, 98] := by
  decide

/-- C3 (amended): when the store holds a record `b` with identifier `i` and a request
that passes validation carries an id that casts to `i`, save-draft answers 200 with
the updated record `b'` and replaces `b` by `b'` in place: the identifiers of the store
are the same, `b'` keeps the id, status and creation time of `b`, its title and content
are the request's trimmed, its tags are the parsed tag sequence, its `updated_at` is
the handler's clock reading (so not earlier than before when the clock did not go
back), and every other record is unchanged. -/
theorem C3_saveDraft_update (clk : Clock) (req : ReqBody) (store : Store) (b : Blog)
    (s title content : JSString) (i : ObjectId)
    (hfind : findById i store = some b)
    (hid : req.id = some s) (hcast : castObjectId s = some i)
    (ht : req.title = some title) (htne : title ≠ []) (hlen : title.length ≤ 120)
    (hc : req.content = some content) (hcne : content ≠ []) :
    ∃ (b' : Blog) (pre post : Store),
      store = pre ++ b :: post ∧ (∀ x ∈ pre, x._id ≠ i) ∧
      saveDraft clk req store = (⟨200, .blog b'⟩, pre ++ b' :: post) ∧
      findById i (pre ++ b' :: post) = some b' ∧
      ids (pre ++ b' :: post) = ids store ∧
      b'._id = i ∧ b._id = i ∧
      b'.status = b.status ∧
      b'.created_at = b.created_at ∧
      b'.title = trim title ∧
      b'.content = trim content ∧
      b'.tags = parseTags req.tags ∧
      b'.updated_at = clk.handlerNow ∧
      (b.updated_at ≤ clk.handlerNow → b.updated_at ≤ b'.updated_at) := by
  obtain ⟨hb, pre, post, hst, hpre⟩ := findById_eq_some hfind
  have hrej : rejected req = false := rejected_eq_false ht htne hlen hc hcne
  have hidt : truthy req.id = true := by rw [hid]; exact truthy_of_cast hcast
  have hsave := saveDraft_of_not_rejected clk req store hrej
  simp only [hidt, if_true] at hsave
  rw [hid, findByIdAndUpdate_found _ hcast hfind] at hsave
  simp only [jsonOf] at hsave
  rw [hst, updateFirst_append_cons _ pre post b hpre hb, ← hst] at hsave
  refine ⟨_, pre, post, hst, hpre, hsave, ?_, ?_, ?_, hb, ?_, ?_, ?_, ?_, ?_, ?_, ?_⟩
  · exact findById_append_cons pre post _ hpre (by simpa [applyUpdate] using hb)
  · rw [hst]; simp [ids, applyUpdate]
  · simpa [applyUpdate] using hb
  · simp [applyUpdate]
  · simp [applyUpdate]
  · simp [applyUpdate, trimSetter_eq_trim, ht, str]
  · simp [applyUpdate, trimSetter_eq_trim, hc, str]
  · simp only [applyUpdate]; exact map_trimSetter_parseTags _
  · simp [applyUpdate]
  · intro h; simpa [applyUpdate] using h

/-- C3 witness: a published record is saved again under its id and stays published. -/
theorem C3_saveDraft_update_witness :
    ∃ (b' : Blog) (pre post : Store),
      [publishedPost] = pre ++ publishedPost :: post ∧ (∀ x ∈ pre, x._id ≠ 1) ∧
      saveDraft ⟨5, 5, 5⟩ ⟨some idOne, some [98], some [121], some [99]⟩ [publishedPost] =
        (⟨200, .blog b'⟩, pre ++ b' :: post) ∧
      findById 1 (pre ++ b' :: post) = some b' ∧
      ids (pre ++ b' :: post) = ids [publishedPost] ∧
      b'._id = 1 ∧ publishedPost._id = 1 ∧
      b'.status = publishedPost.status ∧
      b'.created_at = publishedPost.created_at ∧
      b'.title = trim [98] ∧
      b'.content = trim [121] ∧
      b'.tags = parseTags (some [99]) ∧
      b'.updated_at = 5 ∧
      (publishedPost.updated_at ≤ 5 → publishedPost.updated_at ≤ b'.updated_at) :=
  C3_saveDraft_update ⟨5, 5, 5⟩ ⟨some idOne, some [98], some [121], some [99]⟩
    [publishedPost] publishedPost idOne [98] [121] 1
    (by decide) rfl (by decide) rfl (by decide) (by decide) rfl (by decide)

/-! ## Publish (C4, C5) -/

/-- The update object publish builds from a request. -/
theorem publish_found (clk : Clock) (req : ReqBody) (store : Store) (b : Blog)
    (s : JSString) (i : ObjectId) (hrej : rejected req = false)
    (hid : req.id = some s) (hcast : castObjectId s = some i)
    (hfind : findById i store = some b) :
    publish clk req store =
      (⟨200, .blog (applyUpdate
          { title := str req.title, content := str req.content, tags := parseTags req.tags,
            status := some .published, updated_at := clk.handlerNow } b)⟩,
        updateFirst i
          { title := str req.title, content := str req.content, tags := parseTags req.tags,
            status := some .published, updated_at := clk.handlerNow } store) := by
  rw [publish_of_not_rejected clk req store hrej, hid, findByIdAndUpdate_found _ hcast hfind]

theorem ids_publish (clk : Clock) (req : ReqBody) (store : Store) :
    ids (publish clk req store).2 = ids store := by
  cases hrej : rejected req with
  | true => rw [(publish_of_rejected clk req store hrej).2]
  | false =>
    rw [publish_of_not_rejected clk req store hrej]
    cases hid : req.id with
    | none => simp [findByIdAndUpdate]
    | some s =>
      cases hcast : castObjectId s with
      | none => simp [findByIdAndUpdate, hcast]
      | some i =>
        cases hfind : findById i store with
        | none => simp [findByIdAndUpdate, hcast, hfind]
        | some b => simp [findByIdAndUpdate, hcast, hfind, ids_updateFirst]

theorem publish_store_of_ne_200 (clk : Clock) (req : ReqBody) (store : Store)
    (h : (publish clk req store).1.status ≠ 200) : (publish clk req store).2 = store := by
  cases hrej : rejected req with
  | true => exact (publish_of_rejected clk req store hrej).2
  | false =>
    rw [publish_of_not_rejected clk req store hrej] at h ⊢
    cases hid : req.id with
    | none => simp [findByIdAndUpdate]
    | some s =>
      cases hcast : castObjectId s with
      | none => simp [findByIdAndUpdate, hcast]
      | some i =>
        cases hfind : findById i store with
        | none => simp [findByIdAndUpdate, hcast, hfind]
        | some b => simp [hid, findByIdAndUpdate, hcast, hfind] at h

/-- C4, as stated, fails: a second publish of the same request at a later clock
reading refreshes `updated_at`, so the store after two applications differs from the
store after one. -/
theorem C4_counterexample :
    (publish ⟨2, 2, 2⟩ ⟨some idOne, some [97], some [120], none⟩
        (publish ⟨1, 1, 1⟩ ⟨some idOne, some [97], some [120], none⟩ [draftPost]).2).2 ≠
      (publish ⟨1, 1, 1⟩ ⟨some idOne, some [97], some [120], none⟩ [draftPost]).2 := by
  decide

/-- C4 (amended): when the store holds a record `b` with identifier `i` and a request
that passes validation carries an id that casts to `i`, publish answers 200 with a
record that has identifier `i` and status published, and that record replaces `b` in
the store.  Applying the same request again answers 200 and changes nothing but the
record's `updated_at`, which becomes the second clock reading: the result of two
applications is the result of the second one alone, and the store after two
applications equals the store after one when both read the same time. -/
theorem C4_publish_idempotent (clk1 clk2 : Clock) (req : ReqBody) (store : Store) (b : Blog)
    (s title content : JSString) (i : ObjectId)
    (hfind : findById i store = some b)
    (hid : req.id = some s) (hcast : castObjectId s = some i)
    (ht : req.title = some title) (htne : title ≠ []) (hlen : title.length ≤ 120)
    (hc : req.content = some content) (hcne : content ≠ []) :
    ∃ (b1 : Blog) (pre post : Store),
      store = pre ++ b :: post ∧ (∀ x ∈ pre, x._id ≠ i) ∧
      publish clk1 req store = (⟨200, .blog b1⟩, pre ++ b1 :: post) ∧
      b1._id = i ∧ b1.status = .published ∧
      findById i (pre ++ b1 :: post) = some b1 ∧
      publish clk2 req (pre ++ b1 :: post) =
        (⟨200, .blog { b1 with updated_at := clk2.handlerNow }⟩,
          pre ++ { b1 with updated_at := clk2.handlerNow } :: post) ∧
      publish clk2 req (publish clk1 req store).2 = publish clk2 req store ∧
      (clk2.handlerNow = clk1.handlerNow →
        (publish clk2 req (publish clk1 req store).2).2 = (publish clk1 req store).2) := by
  obtain ⟨hb, pre, post, hst, hpre⟩ := findById_eq_some hfind
  have hrej : rejected req = false := rejected_eq_false ht htne hlen hc hcne
  have h1 := publish_found clk1 req store b s i hrej hid hcast hfind
  have h0 := publish_found clk2 req store b s i hrej hid hcast hfind
  rw [hst, updateFirst_append_cons _ pre post b hpre hb, ← hst] at h1 h0
  have hb1 : (applyUpdate
      { title := str req.title, content := str req.content, tags := parseTags req.tags,
        status := some .published, updated_at := clk1.handlerNow } b)._id = i := by
    simpa [applyUpdate] using hb
  have hfind1 := findById_append_cons pre post _ hpre hb1
  have h2 := publish_found clk2 req _ _ s i hrej hid hcast hfind1
  rw [updateFirst_append_cons _ pre post _ hpre hb1] at h2
  refine ⟨_, pre, post, hst, hpre, h1, hb1, by simp [applyUpdate], hfind1, ?_, ?_, ?_⟩
  · rw [h2]; simp [applyUpdate]
  · rw [h1, h2, h0]; simp [applyUpdate]
  · intro ht12
    rw [h1, h2]; simp [applyUpdate, ht12]

/-- C4 witness: the draft with identifier 1 is published at time 1 and again at time 2. -/
theorem C4_publish_idempotent_witness :
    ∃ (b1 : Blog) (pre post : Store),
      [draftPost] = pre ++ draftPost :: post ∧ (∀ x ∈ pre, x._id ≠ 1) ∧
      publish ⟨1, 1, 1⟩ ⟨some idOne, some [97], some [120], none⟩ [draftPost] =
        (⟨200, .blog b1⟩, pre ++ b1 :: post) ∧
      b1._id = 1 ∧ b1.status = .published ∧
      findById 1 (pre ++ b1 :: post) = some b1 ∧
      publish ⟨2, 2, 2⟩ ⟨some idOne, some [97], some [120], none⟩ (pre ++ b1 :: post) =
        (⟨200, .blog { b1 with updated_at := 2 }⟩, pre ++ { b1 with updated_at := 2 } :: post) ∧
      publish ⟨2, 2, 2⟩ ⟨some idOne, some [97], some [120], none⟩
          (publish ⟨1, 1, 1⟩ ⟨some idOne, some [97], some [120], none⟩ [draftPost]).2 =
        publish ⟨2, 2, 2⟩ ⟨some idOne, some [97], some [120], none⟩ [draftPost] ∧
      ((2 : Nat) = 1 →
        (publish ⟨2, 2, 2⟩ ⟨some idOne, some [97], some [120], none⟩
            (publish ⟨1, 1, 1⟩ ⟨some idOne, some [97], some [120], none⟩ [draftPost]).2).2 =
          (publish ⟨1, 1, 1⟩ ⟨some idOne, some [97], some [120], none⟩ [draftPost]).2) :=
  C4_publish_idempotent ⟨1, 1, 1⟩ ⟨2, 2, 2⟩ ⟨some idOne, some [97], some [120], none⟩
    [draftPost] draftPost idOne [97] [120] 1
    (by decide) rfl (by decide) rfl (by decide) (by decide) rfl (by decide)

/-- C5, as stated, fails: a publish request with no id and no title is answered 400,
not 404; and one whose id is the string `"abc"`, which is no identifier, is answered
500 (the cast error is caught by the handler), not 404. -/
theorem C5_counterexample :
    (publish ⟨1, 1, 1⟩ ⟨none, none, some [120], none⟩ [draftPost]).1.status = 400 ∧
    (publish ⟨1, 1, 1⟩ ⟨some [97, 98, 99], some [97], some [120], none⟩ [draftPost]).1.status =
      500 := by
  decide

/-- C5 (amended): for every store and every publish request that passes validation
and whose id is absent, or casts to an identifier that no stored record has, publish
answers 404 and leaves the store unchanged.  For every publish request whatsoever
the identifiers in the store stay the same (no record is created), and the store is
unchanged unless the answer is 200. -/
theorem C5_publish_not_found (clk : Clock) (req : ReqBody) (store : Store)
    (title content : JSString)
    (ht : req.title = some title) (htne : title ≠ []) (hlen : title.length ≤ 120)
    (hc : req.content = some content) (hcne : content ≠ [])
    (hid : req.id = none ∨ ∃ s i, req.id = some s ∧ castObjectId s = some i ∧ i ∉ ids store) :
    publish clk req store = (⟨404, .error "Blog not found"⟩, store) ∧
    (∀ (clk' : Clock) (req' : ReqBody),
      ids (publish clk' req' store).2 = ids store ∧
      ((publish clk' req' store).1.status ≠ 200 → (publish clk' req' store).2 = store)) := by
  have hrej : rejected req = false := rejected_eq_false ht htne hlen hc hcne
  refine ⟨?_, fun clk' req' => ⟨ids_publish clk' req' store, publish_store_of_ne_200 clk' req' store⟩⟩
  rw [publish_of_not_rejected clk req store hrej]
  rcases hid with hid | ⟨s, i, hid, hcast, hmem⟩
  · rw [hid]; rfl
  · rw [hid, findByIdAndUpdate_unknown _ hcast (findById_eq_none.2 hmem)]

/-- C5 witness: publishing under the identifier 2 when only the record 1 is stored. -/
theorem C5_publish_not_found_witness :
    publish ⟨1, 1, 1⟩ ⟨some idTwo, some [97], some [120], none⟩ [draftPost] =
      (⟨404, .error "Blog not found"⟩, [draftPost]) ∧
    (∀ (clk' : Clock) (req' : ReqBody),
      ids (publish clk' req' [draftPost]).2 = ids [draftPost] ∧
      ((publish clk' req' [draftPost]).1.status ≠ 200 →
        (publish clk' req' [draftPost]).2 = [draftPost])) :=
  C5_publish_not_found ⟨1, 1, 1⟩ ⟨some idTwo, some [97], some [120], none⟩ [draftPost]
    [97] [120] rfl (by decide) (by decide) rfl (by decide)
    (Or.inr ⟨idTwo, 2, rfl, by decide, by decide⟩)

/-! ## Save-draft with an id that no record has (C6) -/

/-- C6: what the code does where the claim expects a failure.  For every store and
every request that passes validation and carries a well-formed id that no stored
record has, save-draft answers 200 with the body `null` (the `null` returned by the
update is sent as a success) and leaves the store unchanged; only an id that is no
identifier at all is answered 500. -/
theorem C6_saveDraft_unknown_id (clk : Clock) (req : ReqBody) (store : Store)
    (s title content : JSString) (i : ObjectId)
    (hid : req.id = some s) (hcast : castObjectId s = some i) (hmem : i ∉ ids store)
    (ht : req.title = some title) (htne : title ≠ []) (hlen : title.length ≤ 120)
    (hc : req.content = some content) (hcne : content ≠ []) :
    saveDraft clk req store = (⟨200, .null⟩, store) := by
  have hrej : rejected req = false := rejected_eq_false ht htne hlen hc hcne
  have hidt : truthy req.id = true := by rw [hid]; exact truthy_of_cast hcast
  rw [saveDraft_of_not_rejected clk req store hrej]
  simp only [hidt, if_true]
  rw [hid, findByIdAndUpdate_unknown _ hcast (findById_eq_none.2 hmem)]
  rfl

/-- C6 failing input: `{id: "000000000000000000000002", title: "a", content: "x"}`
against a store that holds only the record 1. -/
theorem C6_saveDraft_unknown_id_witness :
    saveDraft ⟨1, 1, 1⟩ ⟨some idTwo, some [97], some [120], none⟩ [draftPost] =
      (⟨200, .null⟩, [draftPost]) :=
  C6_saveDraft_unknown_id ⟨1, 1, 1⟩ ⟨some idTwo, some [97], some [120], none⟩ [draftPost]
    idTwo [97] [120] 2 rfl (by decide) (by decide) rfl (by decide) (by decide) rfl (by decide)

/-! ## Tags (C7, C8) -/

theorem parseTags_some_ne_nil {s : JSString} (h : s ≠ []) :
    parseTags (some s) = (split comma s).map trim := by
  cases s with
  | nil => exact absurd rfl h
  | cons c cs => simp [parseTags, truthy, str]

theorem create_eq_ok {clk : Clock} {u : Update} {store store' : Store} {blog : Option Blog}
    (h : create clk u store = .ok (blog, store')) :
    ∃ doc, blog = some doc ∧ doc.tags = u.tags.map trimSetter ∧ store' = store ++ [doc] := by
  unfold create at h
  simp only at h
  split_ifs at h
  simp only [Except.ok.injEq, Prod.mk.injEq] at h
  obtain ⟨h1, h2⟩ := h
  exact ⟨_, h1.symm, rfl, h2.symm⟩

theorem findByIdAndUpdate_eq_ok_some {id : Option JSString} {u : Update} {store store' : Store}
    {doc : Blog} (h : findByIdAndUpdate id u store = .ok (some doc, store')) :
    doc.tags = u.tags.map trimSetter ∧ doc ∈ store' := by
  cases id with
  | none => simp [findByIdAndUpdate] at h
  | some s =>
    cases hcast : castObjectId s with
    | none => simp [findByIdAndUpdate, hcast] at h
    | some i =>
      cases hfind : findById i store with
      | none => simp [findByIdAndUpdate, hcast, hfind] at h
      | some b =>
        simp only [findByIdAndUpdate, hcast, hfind, Except.ok.injEq, Prod.mk.injEq,
          Option.some.injEq] at h
        obtain ⟨h1, h2⟩ := h
        obtain ⟨hb, pre, post, hst, hpre⟩ := findById_eq_some hfind
        subst h1
        refine ⟨rfl, ?_⟩
        rw [← h2, hst, updateFirst_append_cons u pre post b hpre hb]
        simp

/-- A record sent back by save-draft carries the parsed tags and is in the store. -/
theorem saveDraft_blog_tags (clk : Clock) (req : ReqBody) (store : Store) (b : Blog)
    (h : (saveDraft clk req store).1.body = .blog b) :
    b.tags = parseTags req.tags ∧ b ∈ (saveDraft clk req store).2 := by
  cases hrej : rejected req with
  | true =>
    unfold rejected at hrej
    unfold saveDraft at h
    by_cases h1 : (!truthy req.title || !truthy req.content) = true
    · simp [h1] at h
    · by_cases h2 : (str req.title).length > 120
      · simp [h1, h2] at h
      · simp [h1, h2] at hrej
  | false =>
    rw [saveDraft_of_not_rejected clk req store hrej] at h ⊢
    split at h
    next blog store' heq =>
      simp only at h ⊢
      cases blog with
      | none => simp [jsonOf] at h
      | some doc =>
        simp only [jsonOf, Body.blog.injEq] at h
        subst h
        by_cases hid : truthy req.id = true
        · simp only [hid, if_true] at heq
          have := findByIdAndUpdate_eq_ok_some heq
          exact ⟨by rw [this.1]; exact map_trimSetter_parseTags _, this.2⟩
        · simp only [hid, Bool.false_eq_true, if_false] at heq
          obtain ⟨d, hd, htags, hst⟩ := create_eq_ok heq
          cases hd
          exact ⟨by rw [htags]; exact map_trimSetter_parseTags _, by rw [hst]; simp⟩
    next e heq => simp at h

/-- A record sent back by publish carries the parsed tags and is in the store. -/
theorem publish_blog_tags (clk : Clock) (req : ReqBody) (store : Store) (b : Blog)
    (h : (publish clk req store).1.body = .blog b) :
    b.tags = parseTags req.tags ∧ b ∈ (publish clk req store).2 := by
  cases hrej : rejected req with
  | true =>
    unfold rejected at hrej
    unfold publish at h
    by_cases h1 : (!truthy req.title || !truthy req.content) = true
    · simp [h1] at h
    · by_cases h2 : (str req.title).length > 120
      · simp [h1, h2] at h
      · simp [h1, h2] at hrej
  | false =>
    rw [publish_of_not_rejected clk req store hrej] at h ⊢
    split at h
    next store' heq => simp at h
    next doc store' heq =>
      simp only [Body.blog.injEq] at h
      subst h
      have := findByIdAndUpdate_eq_ok_some heq
      exact ⟨by rw [this.1]; exact map_trimSetter_parseTags _, this.2⟩
    next e heq => simp at h

/-- C7: the tag sequence is empty when the tags input is absent or the empty string;
for any other input `s` it is, segment by segment and in order, the trimmed pieces of
`s` between its commas (the pieces contain no comma and give `s` back when joined
with commas; each tag is its piece without the white space at both ends), one more
than there are commas; and this is the sequence carried by every record that
save-draft or publish stores and sends back. -/
theorem C7_tags_parsed :
    parseTags none = [] ∧ parseTags (some []) = [] ∧
    (∀ s : JSString, s ≠ [] →
      ∃ segs : List JSString,
        IsSplitOf comma s segs ∧
        List.Forall₂ IsTrimOf segs (parseTags (some s)) ∧
        (parseTags (some s)).length = s.count comma + 1) ∧
    (∀ (clk : Clock) (req : ReqBody) (store : Store) (b : Blog),
      ((saveDraft clk req store).1.body = .blog b →
        b.tags = parseTags req.tags ∧ b ∈ (saveDraft clk req store).2) ∧
      ((publish clk req store).1.body = .blog b →
        b.tags = parseTags req.tags ∧ b ∈ (publish clk req store).2)) := by
  refine ⟨rfl, rfl, ?_, fun clk req store b =>
    ⟨saveDraft_blog_tags clk req store b, publish_blog_tags clk req store b⟩⟩
  intro s hs
  refine ⟨split comma s, isSplitOf_split comma s, ?_, ?_⟩
  · rw [parseTags_some_ne_nil hs, List.forall₂_map_right_iff]
    exact List.forall₂_same.2 (fun seg _ => isTrimOf_trim seg)
  · rw [parseTags_some_ne_nil hs, List.length_map, length_split]

theorem split_join_commaSpace (x : JSString) (rest : List JSString)
    (h : ∀ y ∈ x :: rest, comma ∉ y) :
    split comma (join [comma, space] (x :: rest)) = x :: rest.map (fun y => space :: y) := by
  induction rest generalizing x with
  | nil => exact split_of_not_mem (h x (List.mem_cons_self _ _))
  | cons y r ih =>
    have hx : comma ∉ x := h x (List.mem_cons_self _ _)
    have ih2 := ih y (fun z hz => h z (List.mem_cons_of_mem _ hz))
    show split comma (x ++ [comma, space] ++ join [comma, space] (y :: r)) = _
    have e : x ++ [comma, space] ++ join [comma, space] (y :: r) =
        x ++ comma :: (space :: join [comma, space] (y :: r)) := by simp
    rw [e, split_append_sep hx,
      split_cons_ne (by decide : space ≠ comma) _ y (r.map (fun y => space :: y)) ih2]
    rfl

/-- Joining with `", "` and parsing again gives a list of trimmed, comma-free tags
back, unless the list is the single empty tag. -/
theorem parseTags_join (l : List JSString) (h : ∀ y ∈ l, comma ∉ y ∧ trim y = y)
    (hne : l ≠ [[]]) : parseTags (some (join [comma, space] l)) = l := by
  cases l with
  | nil => rfl
  | cons x rest =>
    have hjoin : join [comma, space] (x :: rest) ≠ [] := by
      cases rest with
      | nil =>
        intro e
        apply hne
        simp only [join] at e
        rw [e]
      | cons y r => simp [join]
    rw [parseTags_some_ne_nil hjoin, split_join_commaSpace x rest (fun y hy => (h y hy).1)]
    simp only [List.map_cons, List.map_map]
    rw [(h x (List.mem_cons_self _ _)).2]
    congr 1
    have : ∀ y ∈ rest, (trim ∘ fun y => space :: y) y = id y := by
      intro y hy
      show trim (space :: y) = y
      rw [trim_cons_ws space y (by decide)]
      exact (h y (List.mem_cons_of_mem _ hy)).2
    rw [List.map_congr_left this, List.map_id]

theorem parseTags_mem {tags : Option JSString} {y : JSString} (h : y ∈ parseTags tags) :
    comma ∉ y ∧ trim y = y := by
  unfold parseTags at h
  split_ifs at h
  · obtain ⟨seg, hseg, rfl⟩ := List.mem_map.1 h
    exact ⟨fun hm => not_mem_of_mem_split hseg (mem_of_mem_trim hm), trim_idem seg⟩
  · cases h

theorem parseTags_ne_single_empty {s : JSString}
    (h : s = [] ∨ comma ∈ s ∨ ∃ c ∈ s, isWhiteSpace c = false) :
    parseTags (some s) ≠ [[]] := by
  rcases h with h | h | ⟨c, hc, hws⟩
  · subst h; simp [parseTags, truthy]
  · have hs : s ≠ [] := List.ne_nil_of_mem h
    intro e
    have hl := congrArg List.length e
    rw [parseTags_some_ne_nil hs, List.length_map, length_split] at hl
    have : 0 < s.count comma := List.count_pos_iff.2 h
    simp at hl
    omega
  · have hs : s ≠ [] := List.ne_nil_of_mem hc
    by_cases hcomma : comma ∈ s
    · intro e
      have hl := congrArg List.length e
      rw [parseTags_some_ne_nil hs, List.length_map, length_split] at hl
      have : 0 < s.count comma := List.count_pos_iff.2 hcomma
      simp at hl
      omega
    · rw [parseTags_some_ne_nil hs, split_of_not_mem hcomma]
      intro e
      simp only [List.map_cons, List.map_nil, List.cons.injEq, and_true] at e
      have := (trim_eq_nil_iff s).1 e c hc
      rw [hws] at this
      cases this

/-- C8, as stated, fails: the tags input `" "` is stored as the one empty tag, the
editor joins that to the empty string, and saving the empty string stores no tag. -/
theorem C8_counterexample :
    parseTags (some [32]) = [[]] ∧
    join [comma, space] (parseTags (some [32])) = [] ∧
    parseTags (some (join [comma, space] (parseTags (some [32])))) = [] ∧
    parseTags (some (join [comma, space] (parseTags (some [32])))) ≠ parseTags (some [32]) := by
  decide

/-- C8 (amended): for every tags input `s` that is empty, or contains a comma, or
contains a code unit that is not white space, parsing the `", "`-join of the parsed
tags gives the parsed tags again, so the tags of a stored post survive loading it
into the editor and saving the form; and `"a, b ,c"` is parsed to `["a","b","c"]`. -/
theorem C8_tag_round_trip (s : JSString)
    (h : s = [] ∨ comma ∈ s ∨ ∃ c ∈ s, isWhiteSpace c = false) :
    parseTags (some (join [comma, space] (parseTags (some s)))) = parseTags (some s) ∧
    (∀ (b : Blog) (id : Option JSString), b.tags = parseTags (some s) →
      parseTags (requestBody id (fetchBlogForm b)).tags = b.tags) ∧
    parseTags (some [97, 44, 32, 98, 32, 44, 99]) = [[97], [98], [99]] := by
  have key := parseTags_join (parseTags (some s)) (fun y hy => parseTags_mem hy)
    (parseTags_ne_single_empty h)
  refine ⟨key, ?_, by decide⟩
  intro b id hb
  show parseTags (some (join [comma, space] b.tags)) = b.tags
  rw [hb]
  exact key

/-- C8 witness: the input `"a, b ,c"`. -/
theorem C8_tag_round_trip_witness :
    parseTags (some (join [comma, space] (parseTags (some [97, 44, 32, 98, 32, 44, 99])))) =
      parseTags (some [97, 44, 32, 98, 32, 44, 99]) ∧
    (∀ (b : Blog) (id : Option JSString),
      b.tags = parseTags (some [97, 44, 32, 98, 32, 44, 99]) →
      parseTags (requestBody id (fetchBlogForm b)).tags = b.tags) ∧
    parseTags (some [97, 44, 32, 98, 32, 44, 99]) = [[97], [98], [99]] :=
  C8_tag_round_trip [97, 44, 32, 98, 32, 44, 99] (Or.inr (Or.inl (by decide)))

/-! ## Editor validation (C9, C10) -/

theorem saveDraft_insert_status (clk : Clock) (req : ReqBody) (store : Store)
    (title content : JSString)
    (hid : req.id = none ∨ req.id = some [])
    (ht : req.title = some title) (hc : req.content = some content)
    (htb : trim title ≠ []) (hcb : trim content ≠ []) (hlen : title.length ≤ 120) :
    (saveDraft clk req store).1.status = 200 := by
  have htne : title ≠ [] := by rintro rfl; exact htb rfl
  have hcne : content ≠ [] := by rintro rfl; exact hcb rfl
  have hrej : rejected req = false := rejected_eq_false ht htne hlen hc hcne
  have hidf : truthy req.id = false := (truthy_eq_false_iff _).2 hid
  rw [saveDraft_of_not_rejected clk req store hrej]
  simp only [hidf, Bool.false_eq_true, if_false]
  rw [create_ok clk _ store (by simpa [ht, str] using htb) (by simpa [ht, str] using hlen)
    (by simpa [hc, str] using hcb)]

theorem keys_eq_nil_iff (e : ValidationErrors) :
    e.keys = [] ↔ e.title = none ∧ e.content = none ∧ e.tags = none := by
  obtain ⟨t, c, g⟩ := e
  cases t <;> cases c <;> cases g <;> simp [ValidationErrors.keys]

theorem validateForm_iff_keys (f : FormData) :
    validateForm f = true ↔ (validationErrors f).keys = [] := by
  simp [validateForm]

theorem title_error_iff (f : FormData) :
    (validationErrors f).title ≠ none ↔ trim f.title = [] ∨ f.title.length > 120 := by
  unfold validationErrors
  by_cases h1 : trim f.title = []
  · simp [h1]
  · by_cases h2 : f.title.length > 120
    · simp [h1, h2]
    · simp [h1, h2]

theorem content_error_iff (f : FormData) :
    (validationErrors f).content ≠ none ↔ trim f.content = [] := by
  unfold validationErrors
  by_cases h1 : trim f.content = []
  · simp [h1]
  · simp [h1]

theorem tags_error_iff (f : FormData) :
    (validationErrors f).tags ≠ none ↔ ∃ seg ∈ split comma f.tags, (trim seg).length > 30 := by
  unfold validationErrors
  cases ht : f.tags with
  | nil => simp [split, trim_nil]
  | cons c cs =>
    by_cases h : ∃ seg ∈ split comma (c :: cs), (trim seg).length > 30
    · simp only [h, iff_true]
      have : ((split comma (c :: cs)).any fun tag => decide ((trim tag).length > 30)) = true := by
        simpa [List.any_eq_true] using h
      simp [this]
    · simp only [h, iff_false]
      have : ((split comma (c :: cs)).any fun tag => decide ((trim tag).length > 30)) = false := by
        rw [Bool.eq_false_iff]
        intro e
        apply h
        simpa [List.any_eq_true] using e
      simp [this]

theorem validateForm_eq_true_iff (f : FormData) :
    validateForm f = true ↔
      (trim f.title ≠ [] ∧ f.title.length ≤ 120) ∧ trim f.content ≠ [] ∧
        ∀ seg ∈ split comma f.tags, (trim seg).length ≤ 30 := by
  rw [validateForm_iff_keys, keys_eq_nil_iff]
  have h1 := title_error_iff f
  have h2 := content_error_iff f
  have h3 := tags_error_iff f
  constructor
  · rintro ⟨a, b, c⟩
    refine ⟨?_, ?_, ?_⟩
    · have := (not_congr h1).1 (by simpa using a)
      push_neg at this
      exact ⟨this.1, by omega⟩
    · exact (not_congr h2).1 (by simpa using b)
    · have := (not_congr h3).1 (by simpa using c)
      push_neg at this
      exact this
  · rintro ⟨⟨a1, a2⟩, b, c⟩
    refine ⟨?_, ?_, ?_⟩
    · by_contra hne
      rcases h1.1 hne with h | h
      · exact a1 h
      · omega
    · by_contra hne
      exact b (h2.1 hne)
    · by_contra hne
      obtain ⟨seg, hseg, hlen⟩ := h3.1 hne
      have := c seg hseg
      omega

/-- C10: `validateForm` returns true exactly when the error mapping it builds has no
key, that is, no field carries an error; the title has an error exactly when it is
blank after trimming or has more than 120 code units, the content exactly when it is
blank after trimming, the tags exactly when some comma-separated segment has more
than 30 code units after trimming. -/
theorem C10_validateForm_errors (f : FormData) :
    (validateForm f = true ↔ (validationErrors f).keys = []) ∧
    ((validationErrors f).keys = [] ↔
      (validationErrors f).title = none ∧ (validationErrors f).content = none ∧
        (validationErrors f).tags = none) ∧
    ((validationErrors f).title ≠ none ↔ trim f.title = [] ∨ f.title.length > 120) ∧
    ((validationErrors f).content ≠ none ↔ trim f.content = []) ∧
    ((validationErrors f).tags ≠ none ↔
      ∃ seg ∈ split comma f.tags, (trim seg).length > 30) :=
  ⟨validateForm_iff_keys f, keys_eq_nil_iff _, title_error_iff f, content_error_iff f,
    tags_error_iff f⟩

/-- C9, as stated, fails: a title of 120 spaces has exactly 120 code units, and the
editor's validation rejects it as blank ("Title is required"). -/
theorem C9_counterexample :
    (List.replicate 120 space).length = 120 ∧
    validateForm ⟨List.replicate 120 space, [120], []⟩ = false ∧
    (validationErrors ⟨List.replicate 120 space, [120], []⟩).title =
      some "Title is required" := by
  decide

/-- C9 (amended): a title of exactly 121 code units is rejected by the editor's
validation and answered 400 by save-draft and by publish, whatever the other fields;
a title of exactly 120 code units that is not blank after trimming, with content not
blank after trimming and every tag segment of at most 30 code units after trimming,
passes the editor's validation, is not answered 400 by save-draft or publish, and
is stored with answer 200 by a save-draft without id. -/
theorem C9_title_boundary (title content tags : JSString) :
    (title.length = 121 →
      validateForm ⟨title, content, tags⟩ = false ∧
      ∀ (clk : Clock) (id : Option JSString) (store : Store),
        (saveDraft clk (requestBody id ⟨title, content, tags⟩) store).1.status = 400 ∧
        (publish clk (requestBody id ⟨title, content, tags⟩) store).1.status = 400) ∧
    (title.length = 120 → trim title ≠ [] → trim content ≠ [] →
      (∀ seg ∈ split comma tags, (trim seg).length ≤ 30) →
      validateForm ⟨title, content, tags⟩ = true ∧
      ∀ (clk : Clock) (id : Option JSString) (store : Store),
        (saveDraft clk (requestBody id ⟨title, content, tags⟩) store).1.status ≠ 400 ∧
        (publish clk (requestBody id ⟨title, content, tags⟩) store).1.status ≠ 400 ∧
        (id = none →
          (saveDraft clk (requestBody id ⟨title, content, tags⟩) store).1.status = 200)) := by
  constructor
  · intro hlen
    constructor
    · cases hv : validateForm ⟨title, content, tags⟩ with
      | false => rfl
      | true =>
        have := ((validateForm_eq_true_iff _).1 hv).1.2
        simp only at this
        omega
    · intro clk id store
      have hrej : rejected (requestBody id ⟨title, content, tags⟩) = true :=
        (rejected_iff _).2 (Or.inr (Or.inr ⟨title, rfl, by omega⟩))
      exact ⟨(saveDraft_of_rejected clk _ store hrej).1, (publish_of_rejected clk _ store hrej).1⟩
  · intro hlen htb hcb htags
    refine ⟨(validateForm_eq_true_iff _).2 ⟨⟨htb, by simp only; omega⟩, hcb, htags⟩, ?_⟩
    intro clk id store
    have htne : title ≠ [] := by rintro rfl; exact htb rfl
    have hcne : content ≠ [] := by rintro rfl; exact hcb rfl
    have hrej : rejected (requestBody id ⟨title, content, tags⟩) = false :=
      @rejected_eq_false _ title content rfl htne (by omega) rfl hcne
    refine ⟨?_, ?_, ?_⟩
    · rcases saveDraft_status_of_not_rejected clk _ store hrej with h | h <;> rw [h] <;> decide
    · rcases publish_status_of_not_rejected clk _ store hrej with h | h | h <;> rw [h] <;> decide
    · intro hid
      subst hid
      exact saveDraft_insert_status clk (requestBody none ⟨title, content, tags⟩) store
        title content (Or.inl rfl) rfl rfl htb hcb (by omega)

/-- C9 witness: 121 and 120 letters `a` as title, content `"x"`, no tags. -/
theorem C9_title_boundary_witness :
    (validateForm ⟨List.replicate 121 97, [120], []⟩ = false ∧
      ∀ (clk : Clock) (id : Option JSString) (store : Store),
        (saveDraft clk (requestBody id ⟨List.replicate 121 97, [120], []⟩) store).1.status = 400 ∧
        (publish clk (requestBody id ⟨List.replicate 121 97, [120], []⟩) store).1.status = 400) ∧
    (validateForm ⟨List.replicate 120 97, [120], []⟩ = true ∧
      ∀ (clk : Clock) (id : Option JSString) (store : Store),
        (saveDraft clk (requestBody id ⟨List.replicate 120 97, [120], []⟩) store).1.status ≠ 400 ∧
        (publish clk (requestBody id ⟨List.replicate 120 97, [120], []⟩) store).1.status ≠ 400 ∧
        (id = none →
          (saveDraft clk (requestBody id ⟨List.replicate 120 97, [120], []⟩) store).1.status =
            200)) :=
  ⟨(C9_title_boundary (List.replicate 121 97) [120] []).1 (by decide),
    (C9_title_boundary (List.replicate 120 97) [120] []).2 (by decide) (by decide) (by decide)
      (by decide)⟩


/-! ## Auto-save and manual save (C11, C14) -/

theorem autoSaveFrom_not_dirty (now : Nat) (post : ReqBody → HttpResult) (s st : EditorState)
    (hd : s.isDirty = false) : autoSaveFrom now post s st = (.normal, st, ⟨[], []⟩) := by
  simp [autoSaveFrom, hd]

theorem autoSaveFrom_invalid (now : Nat) (post : ReqBody → HttpResult) (s st : EditorState)
    (hd : s.isDirty = true) (hv : validateForm s.formData = false) :
    autoSaveFrom now post s st =
      (.normal, { st with validationErrors := validationErrors s.formData }, ⟨[], []⟩) := by
  simp [autoSaveFrom, hd, hv]

theorem autoSaveFrom_rejected (now : Nat) (post : ReqBody → HttpResult) (s st : EditorState)
    (hd : s.isDirty = true) (hv : validateForm s.formData = true)
    (hfail : post (requestBody s.id s.formData) = .rejected) :
    autoSaveFrom now post s st =
      (.normal,
        { st with
          validationErrors := validationErrors s.formData
          error := some "Auto-save failed. Please try saving manually."
          notification := some ⟨"Auto-save failed", .error⟩ },
        ⟨[requestBody s.id s.formData], []⟩) := by
  simp [autoSaveFrom, hd, hv, hfail]

/-- `autoSave` handles every failure itself: it never ends by throwing. -/
theorem autoSaveFrom_normal (now : Nat) (post : ReqBody → HttpResult) (s st : EditorState) :
    (autoSaveFrom now post s st).1 = .normal := by
  cases hd : s.isDirty
  · simp [autoSaveFrom, hd]
  · cases hv : validateForm s.formData
    · simp [autoSaveFrom, hd, hv]
    · cases hp : post (requestBody s.id s.formData) with
      | rejected => simp [autoSaveFrom, hd, hv, hp]
      | resolved data =>
        cases hi : truthy s.id
        · cases data <;> simp [autoSaveFrom, hd, hv, hp, hi]
        · simp [autoSaveFrom, hd, hv, hp, hi]

theorem autoSaveFrom_requests_valid (now : Nat) (post : ReqBody → HttpResult)
    (s st : EditorState) (hd : s.isDirty = true) (hv : validateForm s.formData = true) :
    (autoSaveFrom now post s st).2.2.requests = [requestBody s.id s.formData] := by
  cases hp : post (requestBody s.id s.formData) with
  | rejected => simp [autoSaveFrom, hd, hv, hp]
  | resolved data =>
    cases hi : truthy s.id
    · cases data <;> simp [autoSaveFrom, hd, hv, hp, hi]
    · simp [autoSaveFrom, hd, hv, hp, hi]

/-- C11: what the code does where the claim expects a failure report.  For every
editor state with a valid, dirty form whose save-draft request fails, `autoSave`
handles the failure itself and returns normally, so `handleSave` goes on to clear
the page-level error and to show the success notification "Draft saved
successfully"; `loading` is false again and the one request was sent. -/
theorem C11_handleSave_failed_request (now : Nat) (post : ReqBody → HttpResult)
    (s : EditorState) (hv : validateForm s.formData = true) (hd : s.isDirty = true)
    (hfail : post (requestBody s.id s.formData) = .rejected) :
    (handleSave now post s).1.error = none ∧
    (handleSave now post s).1.notification = some ⟨"Draft saved successfully", .success⟩ ∧
    (handleSave now post s).1.loading = false ∧
    (handleSave now post s).2.requests = [requestBody s.id s.formData] := by
  unfold handleSave
  simp only [hv, Bool.not_true, Bool.false_eq_true, if_false]
  rw [autoSaveFrom_rejected now post s _ hd hv hfail]
  exact ⟨rfl, rfl, rfl, rfl⟩

/-- C11 failing input: the valid, dirty editor on `/new` when every request fails. -/
theorem C11_handleSave_failed_request_witness :
    (handleSave 9 (fun _ => .rejected) dirtyEditor).1.error = none ∧
    (handleSave 9 (fun _ => .rejected) dirtyEditor).1.notification =
      some ⟨"Draft saved successfully", .success⟩ ∧
    (handleSave 9 (fun _ => .rejected) dirtyEditor).1.loading = false ∧
    (handleSave 9 (fun _ => .rejected) dirtyEditor).2.requests =
      [requestBody dirtyEditor.id dirtyEditor.formData] :=
  C11_handleSave_failed_request 9 (fun _ => .rejected) dirtyEditor (by decide) (by decide) rfl

/-- C14, as stated, fails: on a dirty editor whose form is empty, auto-save sends no
request but is no no-op: `validateForm` runs in the guard and stores the errors it
found, so `validationErrors` changes from empty to the two "required" messages. -/
theorem C14_counterexample :
    emptiedEditor.isDirty = true ∧ validateForm emptiedEditor.formData = false ∧
    (autoSave 9 (fun _ => .rejected) emptiedEditor).2.requests = [] ∧
    emptiedEditor.validationErrors = ⟨none, none, none⟩ ∧
    (autoSave 9 (fun _ => .rejected) emptiedEditor).1.validationErrors =
      ⟨some "Title is required", some "Content is required", none⟩ ∧
    (autoSave 9 (fun _ => .rejected) emptiedEditor).1 ≠ emptiedEditor := by
  decide

/-- C14 (amended): auto-save sends a save-draft request exactly when `isDirty` is
true and the form passes validation.  When `isDirty` is false it is a no-op: nothing
is sent and the state is unchanged.  When `isDirty` is true and validation fails,
nothing is sent and the state is unchanged except for `validationErrors`, which
becomes the error mapping of the form.  When it sends, it sends the one body
`{id, title, content, tags}`, the same a manual save sends. -/
theorem C14_autoSave_guard (now : Nat) (post : ReqBody → HttpResult) (s : EditorState) :
    ((autoSave now post s).2.requests ≠ [] ↔
      s.isDirty = true ∧ validateForm s.formData = true) ∧
    (s.isDirty = false → autoSave now post s = (s, ⟨[], []⟩)) ∧
    (s.isDirty = true → validateForm s.formData = false →
      autoSave now post s =
        ({ s with validationErrors := validationErrors s.formData }, ⟨[], []⟩)) ∧
    (s.isDirty = true → validateForm s.formData = true →
      (autoSave now post s).2.requests =
        [⟨s.id, some s.formData.title, some s.formData.content, some s.formData.tags⟩] ∧
      (handleSave now post s).2.requests = (autoSave now post s).2.requests) := by
  have h1 : s.isDirty = false → autoSave now post s = (s, ⟨[], []⟩) := by
    intro hd
    unfold autoSave
    rw [autoSaveFrom_not_dirty now post s s hd]
  have h2 : s.isDirty = true → validateForm s.formData = false →
      autoSave now post s =
        ({ s with validationErrors := validationErrors s.formData }, ⟨[], []⟩) := by
    intro hd hv
    unfold autoSave
    rw [autoSaveFrom_invalid now post s s hd hv]
  have h3 : s.isDirty = true → validateForm s.formData = true →
      (autoSave now post s).2.requests = [requestBody s.id s.formData] := by
    intro hd hv
    exact autoSaveFrom_requests_valid now post s s hd hv
  refine ⟨⟨?_, ?_⟩, h1, h2, ?_⟩
  · intro hne
    cases hd : s.isDirty with
    | false => rw [h1 hd] at hne; exact absurd rfl hne
    | true =>
      cases hv : validateForm s.formData with
      | false => rw [h2 hd hv] at hne; exact absurd rfl hne
      | true => exact ⟨rfl, rfl⟩
  · rintro ⟨hd, hv⟩
    rw [h3 hd hv]
    simp
  · intro hd hv
    refine ⟨h3 hd hv, ?_⟩
    rw [h3 hd hv]
    unfold handleSave
    simp only [hv, Bool.not_true, Bool.false_eq_true, if_false]
    have hn := autoSaveFrom_normal now post s
      { s with validationErrors := validationErrors s.formData, loading := true }
    have hr := autoSaveFrom_requests_valid now post s
      { s with validationErrors := validationErrors s.formData, loading := true } hd hv
    revert hn hr
    generalize autoSaveFrom now post s
      { s with validationErrors := validationErrors s.formData, loading := true } = r
    obtain ⟨c, st2, eff⟩ := r
    intro hn hr
    simp only at hn hr
    subst hn
    exact hr

/-- C14 witness: the valid, dirty editor on `/new`, with a request that succeeds. -/
theorem C14_autoSave_guard_witness :
    (autoSave 9 (fun _ => .resolved (.blog draftPost)) dirtyEditor).2.requests =
        [⟨none, some [97], some [120], some []⟩] ∧
      (handleSave 9 (fun _ => .resolved (.blog draftPost)) dirtyEditor).2.requests =
        (autoSave 9 (fun _ => .resolved (.blog draftPost)) dirtyEditor).2.requests :=
  (C14_autoSave_guard 9 (fun _ => .resolved (.blog draftPost)) dirtyEditor).2.2.2
    (by decide) (by decide)

/-! ## Client validation against service validation (C15) -/

/-- C15: a form that `validateForm` accepts is never answered 400, neither by
save-draft nor by publish, whatever the id, the clock and the store. -/
theorem C15_client_stricter (f : FormData) (id : Option JSString) (clk : Clock)
    (store : Store) (h : validateForm f = true) :
    (saveDraft clk (requestBody id f) store).1.status ≠ 400 ∧
    (publish clk (requestBody id f) store).1.status ≠ 400 := by
  obtain ⟨⟨htb, hlen⟩, hcb, _⟩ := (validateForm_eq_true_iff f).1 h
  have htne : f.title ≠ [] := by intro e; rw [e] at htb; exact htb rfl
  have hcne : f.content ≠ [] := by intro e; rw [e] at hcb; exact hcb rfl
  have hrej : rejected (requestBody id f) = false :=
    @rejected_eq_false _ f.title f.content rfl htne hlen rfl hcne
  constructor
  · rcases saveDraft_status_of_not_rejected clk _ store hrej with h | h <;> rw [h] <;> decide
  · rcases publish_status_of_not_rejected clk _ store hrej with h | h | h <;> rw [h] <;> decide

/-- C15 witness: the form `{title: "a", content: "x", tags: ""}` posted without id. -/
theorem C15_client_stricter_witness :
    (saveDraft ⟨1, 1, 1⟩ (requestBody none ⟨[97], [120], []⟩) [draftPost]).1.status ≠ 400 ∧
    (publish ⟨1, 1, 1⟩ (requestBody none ⟨[97], [120], []⟩) [draftPost]).1.status ≠ 400 :=
  C15_client_stricter ⟨[97], [120], []⟩ none ⟨1, 1, 1⟩ [draftPost] (by decide)


/-! ## What a write does to the store -/

theorem findByIdAndUpdate_eq_ok_none {id : Option JSString} {u : Update} {store store' : Store}
    (h : findByIdAndUpdate id u store = .ok (none, store')) : store' = store := by
  cases id with
  | none =>
    simp only [findByIdAndUpdate, Except.ok.injEq, Prod.mk.injEq, true_and] at h
    exact h.symm
  | some s =>
    cases hcast : castObjectId s with
    | none => simp [findByIdAndUpdate, hcast] at h
    | some i =>
      cases hfind : findById i store with
      | none =>
        simp only [findByIdAndUpdate, hcast, hfind, Except.ok.injEq, Prod.mk.injEq, true_and] at h
        exact h.symm
      | some b => simp [findByIdAndUpdate, hcast, hfind] at h

theorem findByIdAndUpdate_eq_ok_written {id : Option JSString} {u : Update}
    {store store' : Store} {doc : Blog}
    (h : findByIdAndUpdate id u store = .ok (some doc, store')) :
    ∃ (i : ObjectId) (pre post : Store) (old : Blog),
      store = pre ++ old :: post ∧ store' = pre ++ doc :: post ∧ doc = applyUpdate u old ∧
        store' = updateFirst i u store := by
  cases id with
  | none => simp [findByIdAndUpdate] at h
  | some s =>
    cases hcast : castObjectId s with
    | none => simp [findByIdAndUpdate, hcast] at h
    | some i =>
      cases hfind : findById i store with
      | none => simp [findByIdAndUpdate, hcast, hfind] at h
      | some b =>
        simp only [findByIdAndUpdate, hcast, hfind, Except.ok.injEq, Prod.mk.injEq,
          Option.some.injEq] at h
        obtain ⟨h1, h2⟩ := h
        obtain ⟨hb, pre, post, hst, hpre⟩ := findById_eq_some hfind
        refine ⟨i, pre, post, b, hst, ?_, h1.symm, h2.symm⟩
        rw [← h2, ← h1, hst, updateFirst_append_cons u pre post b hpre hb]

theorem create_eq_ok_written {clk : Clock} {u : Update} {store store' : Store}
    {blog : Option Blog} (h : create clk u store = .ok (blog, store')) :
    ∃ doc, blog = some doc ∧ store' = store ++ [doc] ∧ doc.updated_at = clk.saveHookNow := by
  unfold create at h
  simp only at h
  split_ifs at h
  simp only [Except.ok.injEq, Prod.mk.injEq] at h
  obtain ⟨h1, h2⟩ := h
  exact ⟨_, h1.symm, h2.symm, rfl⟩

/-- Every outcome of save-draft, by what it did to the store: nothing, an update in
place that leaves the status alone, or one record appended. -/
theorem saveDraft_store_cases (clk : Clock) (req : ReqBody) (store : Store) :
    ((saveDraft clk req store).2 = store ∧ ∀ b, (saveDraft clk req store).1.body ≠ .blog b) ∨
    (∃ (i : ObjectId) (u : Update), u.status = none ∧ u.updated_at = clk.handlerNow ∧
      (saveDraft clk req store).2 = updateFirst i u store ∧
      ∃ (pre post : Store) (old : Blog), store = pre ++ old :: post ∧
        (saveDraft clk req store).2 = pre ++ applyUpdate u old :: post ∧
        (saveDraft clk req store).1.body = .blog (applyUpdate u old)) ∨
    (∃ doc : Blog, (saveDraft clk req store).2 = store ++ [doc] ∧
      doc.updated_at = clk.saveHookNow ∧ (saveDraft clk req store).1.body = .blog doc) := by
  cases hrej : rejected req with
  | true =>
    refine Or.inl ⟨(saveDraft_of_rejected clk req store hrej).2, ?_⟩
    intro b hb
    unfold rejected at hrej
    unfold saveDraft at hb
    by_cases h1 : (!truthy req.title || !truthy req.content) = true
    · simp [h1] at hb
    · by_cases h2 : (str req.title).length > 120
      · simp [h1, h2] at hb
      · simp [h1, h2] at hrej
  | false =>
    rw [saveDraft_of_not_rejected clk req store hrej]
    split
    next blog store' heq =>
      by_cases hid : truthy req.id = true
      · simp only [hid, if_true] at heq
        cases blog with
        | none =>
          exact Or.inl ⟨findByIdAndUpdate_eq_ok_none heq, fun b hb => by simp [jsonOf] at hb⟩
        | some doc =>
          obtain ⟨i, pre, post, old, hst, hst', hdoc, hup⟩ := findByIdAndUpdate_eq_ok_written heq
          refine Or.inr (Or.inl ⟨i, _, rfl, rfl, hup, pre, post, old, hst, ?_, ?_⟩)
          · rw [← hdoc]; exact hst'
          · rw [← hdoc]; rfl
      · simp only [hid, Bool.false_eq_true, if_false] at heq
        obtain ⟨doc, hd, hst, hup⟩ := create_eq_ok_written heq
        subst hd
        exact Or.inr (Or.inr ⟨doc, hst, hup, rfl⟩)
    next e heq => exact Or.inl ⟨rfl, fun b hb => by simp at hb⟩

/-- Every outcome of publish, by what it did to the store: nothing, or an update in
place that sets the status to published. -/
theorem publish_store_cases (clk : Clock) (req : ReqBody) (store : Store) :
    ((publish clk req store).2 = store ∧ ∀ b, (publish clk req store).1.body ≠ .blog b) ∨
    (∃ (i : ObjectId) (u : Update), u.status = some .published ∧
      u.updated_at = clk.handlerNow ∧
      (publish clk req store).2 = updateFirst i u store ∧
      ∃ (pre post : Store) (old : Blog), store = pre ++ old :: post ∧
        (publish clk req store).2 = pre ++ applyUpdate u old :: post ∧
        (publish clk req store).1.body = .blog (applyUpdate u old)) := by
  cases hrej : rejected req with
  | true =>
    refine Or.inl ⟨(publish_of_rejected clk req store hrej).2, ?_⟩
    intro b hb
    unfold rejected at hrej
    unfold publish at hb
    by_cases h1 : (!truthy req.title || !truthy req.content) = true
    · simp [h1] at hb
    · by_cases h2 : (str req.title).length > 120
      · simp [h1, h2] at hb
      · simp [h1, h2] at hrej
  | false =>
    rw [publish_of_not_rejected clk req store hrej]
    split
    next store' heq => exact Or.inl ⟨rfl, fun b hb => by simp at hb⟩
    next doc store' heq =>
      obtain ⟨i, pre, post, old, hst, hst', hdoc, hup⟩ := findByIdAndUpdate_eq_ok_written heq
      refine Or.inr ⟨i, _, rfl, rfl, hup, pre, post, old, hst, ?_, ?_⟩
      · rw [← hdoc]; exact hst'
      · rw [← hdoc]
    next e heq => exact Or.inl ⟨rfl, fun b hb => by simp at hb⟩

/-! ## Status monotonicity (C12) -/

theorem publishedKept_refl (store : Store) : PublishedKept store store :=
  fun _ b hk hp => ⟨b, hk, rfl, hp⟩

theorem publishedKept_append (store : Store) (l : Store) : PublishedKept store (store ++ l) := by
  intro k b hk hp
  have hlt : k < store.length := (List.getElem?_eq_some.1 hk).1
  exact ⟨b, by rw [List.getElem?_append_left hlt]; exact hk, rfl, hp⟩

theorem publishedKept_updateFirst (i : ObjectId) (u : Update) (store : Store)
    (hu : u.status = none ∨ u.status = some .published) :
    PublishedKept store (updateFirst i u store) := by
  induction store with
  | nil => intro k b hk; simp at hk
  | cons a t ih =>
    intro k b hk hp
    by_cases ha : a._id = i
    · simp only [updateFirst, ha, if_true]
      cases k with
      | zero =>
        simp only [List.getElem?_cons_zero, Option.some.injEq] at hk
        subst hk
        refine ⟨applyUpdate u a, by simp, rfl, ?_⟩
        rcases hu with h | h <;> simp [applyUpdate, h, hp]
      | succ n =>
        simp only [List.getElem?_cons_succ] at hk
        exact ⟨b, by simpa using hk, rfl, hp⟩
    · simp only [updateFirst, ha, if_false]
      cases k with
      | zero =>
        simp only [List.getElem?_cons_zero, Option.some.injEq] at hk
        subst hk
        exact ⟨a, by simp, rfl, hp⟩
      | succ n =>
        simp only [List.getElem?_cons_succ] at hk
        obtain ⟨b', h1, h2, h3⟩ := ih n b hk hp
        exact ⟨b', by simpa using h1, h2, h3⟩

theorem publishedKept_serve (clk : Clock) (r : ServiceRequest) (store : Store) :
    PublishedKept store (serve clk r store).2 := by
  cases r with
  | saveDraft req =>
    show PublishedKept store (saveDraft clk req store).2
    rcases saveDraft_store_cases clk req store with ⟨h, _⟩ | ⟨i, u, hu, _, h, _⟩ | ⟨doc, h, _⟩
    · rw [h]; exact publishedKept_refl store
    · rw [h]; exact publishedKept_updateFirst i u store (Or.inl hu)
    · rw [h]; exact publishedKept_append store [doc]
  | publish req =>
    show PublishedKept store (publish clk req store).2
    rcases publish_store_cases clk req store with ⟨h, _⟩ | ⟨i, u, hu, _, h, _⟩
    · rw [h]; exact publishedKept_refl store
    · rw [h]; exact publishedKept_updateFirst i u store (Or.inr hu)
  | list => exact publishedKept_refl store
  | getById id =>
    show PublishedKept store (getById id store).2
    unfold getById
    split
    · exact publishedKept_refl store
    · split <;> exact publishedKept_refl store

/-- C12: for every store and every request to any operation of the service
(save-draft, publish, list, getById), every record that is published before the
request is, after it, still in the store at the same place, under the same
identifier, and still published. -/
theorem C12_published_stays_published (clk : Clock) (r : ServiceRequest) (store : Store)
    (k : Nat) (b : Blog) (hk : store[k]? = some b) (hp : b.status = .published) :
    ∃ b' : Blog, (serve clk r store).2[k]? = some b' ∧ b'._id = b._id ∧
      b'.status = .published :=
  publishedKept_serve clk r store k b hk hp

/-- C12 witness: a save-draft under the id of the published record 1. -/
theorem C12_published_stays_published_witness :
    ∃ b' : Blog,
      (serve ⟨5, 5, 5⟩ (.saveDraft ⟨some idOne, some [98], some [121], none⟩)
        [publishedPost]).2[0]? = some b' ∧
      b'._id = publishedPost._id ∧ b'.status = .published :=
  C12_published_stays_published ⟨5, 5, 5⟩ (.saveDraft ⟨some idOne, some [98], some [121], none⟩)
    [publishedPost] 0 publishedPost rfl rfl


/-! ## Listing (C13) -/

theorem findSorted_perm (store : Store) : (findSorted store).Perm store :=
  List.perm_insertionSort updatedAtDesc store

theorem findSorted_pairwise (store : Store) : (findSorted store).Pairwise updatedAtDesc := by
  haveI : IsTotal Blog updatedAtDesc := ⟨fun a b => Nat.le_total b.updated_at a.updated_at⟩
  haveI : IsTrans Blog updatedAtDesc := ⟨fun a b c hab hbc => Nat.le_trans hbc hab⟩
  exact List.sorted_insertionSort updatedAtDesc store

/-- A record that is later than every other one comes first in the listing. -/
theorem findSorted_head (store : Store) (x : Blog) (hx : x ∈ store)
    (hlt : ∀ y ∈ store, y ≠ x → y.updated_at < x.updated_at) :
    ∃ rest, findSorted store = x :: rest := by
  have hperm := findSorted_perm store
  have hsorted := findSorted_pairwise store
  cases hl : findSorted store with
  | nil =>
    rw [hl] at hperm
    rw [hperm.symm.eq_nil] at hx
    cases hx
  | cons h rest =>
    rw [hl] at hperm hsorted
    by_cases hhx : h = x
    · exact ⟨rest, by rw [hhx]⟩
    · exfalso
      have hh : h ∈ store := hperm.subset (List.mem_cons_self _ _)
      have h1 : h.updated_at < x.updated_at := hlt h hh hhx
      have hx' : x ∈ h :: rest := hperm.symm.subset hx
      rcases List.mem_cons.1 hx' with e | e
      · exact hhx e.symm
      · have h2 : x.updated_at ≤ h.updated_at := List.rel_of_pairwise_cons hsorted e
        omega

theorem findSorted_head_of_written (pre post : Store) (x : Blog)
    (hlt : ∀ y ∈ pre ++ post, y.updated_at < x.updated_at) :
    ∃ rest, findSorted (pre ++ x :: post) = x :: rest := by
  apply findSorted_head _ x (by simp)
  intro y hy hne
  apply hlt
  simp only [List.mem_append, List.mem_cons] at hy ⊢
  rcases hy with h | h | h
  · exact Or.inl h
  · exact absurd h hne
  · exact Or.inr h

/-- C13, as stated, fails: a record written at a clock reading that is not later than
the `updated_at` of a stored record does not come first in the next listing.  Here
the stored draft has `updated_at` 3 and a new draft is saved at time 1, and at
time 3. -/
theorem C13_counterexample :
    (saveDraft ⟨1, 1, 1⟩ ⟨none, some [98], some [121], none⟩ [draftPost]).1.status = 200 ∧
    (list (saveDraft ⟨1, 1, 1⟩ ⟨none, some [98], some [121], none⟩ [draftPost]).2).1.body =
      .blogs [draftPost,
        { _id := 2, title := [98], content := [121], tags := [], status := .draft,
          created_at := 1, updated_at := 1 }] ∧
    (list (saveDraft ⟨3, 3, 3⟩ ⟨none, some [98], some [121], none⟩ [draftPost]).2).1.body =
      .blogs [draftPost,
        { _id := 2, title := [98], content := [121], tags := [], status := .draft,
          created_at := 3, updated_at := 3 }] := by
  decide

/-- C13 (amended): for every store, list answers 200 with all stored records, each
one's `updated_at` greater than or equal to that of every later one (so of the next
one); and when a save-draft or publish that stored a record read a clock later than
the `updated_at` of every record stored before, the record it wrote is the first
element of the next listing. -/
theorem C13_list_order (store : Store) :
    (∃ l : List Blog, list store = (⟨200, .blogs l⟩, store) ∧ l.Perm store ∧
      l.Chain' (fun a b => b.updated_at ≤ a.updated_at) ∧
      l.Pairwise (fun a b => b.updated_at ≤ a.updated_at)) ∧
    (∀ (clk : Clock) (req : ReqBody) (b : Blog),
      (∀ y ∈ store, y.updated_at < clk.handlerNow ∧ y.updated_at < clk.saveHookNow) →
      ((saveDraft clk req store).1.body = .blog b →
        ∃ rest, (list (saveDraft clk req store).2).1.body = .blogs (b :: rest)) ∧
      ((publish clk req store).1.body = .blog b →
        ∃ rest, (list (publish clk req store).2).1.body = .blogs (b :: rest))) := by
  constructor
  · exact ⟨findSorted store, rfl, findSorted_perm store, (findSorted_pairwise store).chain',
      findSorted_pairwise store⟩
  · intro clk req b hclock
    constructor
    · intro hb
      rcases saveDraft_store_cases clk req store with
        ⟨_, hno⟩ | ⟨i, u, _, hu, _, pre, post, old, hst, h, hbody⟩ | ⟨doc, h, hdoc, hbody⟩
      · exact absurd hb (hno b)
      · rw [hbody] at hb
        cases hb
        show ∃ rest, Body.blogs (findSorted (saveDraft clk req store).2) = .blogs (_ :: rest)
        rw [h]
        obtain ⟨rest, hr⟩ := findSorted_head_of_written pre post (applyUpdate u old) (by
          intro y hy
          have hy' : y ∈ store := by
            rw [hst]
            simp only [List.mem_append, List.mem_cons] at hy ⊢
            rcases hy with e | e
            · exact Or.inl e
            · exact Or.inr (Or.inr e)
          have := (hclock y hy').1
          simpa [applyUpdate, hu] using this)
        exact ⟨rest, by rw [hr]⟩
      · rw [hbody] at hb
        cases hb
        show ∃ rest, Body.blogs (findSorted (saveDraft clk req store).2) = .blogs (_ :: rest)
        rw [h]
        obtain ⟨rest, hr⟩ := findSorted_head_of_written store [] b (by
          intro y hy
          have hy' : y ∈ store := by simpa using hy
          rw [hdoc]
          exact (hclock y hy').2)
        exact ⟨rest, by rw [hr]⟩
    · intro hb
      rcases publish_store_cases clk req store with
        ⟨_, hno⟩ | ⟨i, u, _, hu, _, pre, post, old, hst, h, hbody⟩
      · exact absurd hb (hno b)
      · rw [hbody] at hb
        cases hb
        show ∃ rest, Body.blogs (findSorted (publish clk req store).2) = .blogs (_ :: rest)
        rw [h]
        obtain ⟨rest, hr⟩ := findSorted_head_of_written pre post (applyUpdate u old) (by
          intro y hy
          have hy' : y ∈ store := by
            rw [hst]
            simp only [List.mem_append, List.mem_cons] at hy ⊢
            rcases hy with e | e
            · exact Or.inl e
            · exact Or.inr (Or.inr e)
          have := (hclock y hy').1
          simpa [applyUpdate, hu] using this)
        exact ⟨rest, by rw [hr]⟩


/-- C13 witness: the draft 1, last updated at time 3, is published at time 5 and then
comes first in the listing. -/
theorem C13_list_order_witness :
    ∃ rest,
      (list (publish ⟨5, 5, 5⟩ ⟨some idOne, some [97], some [120], none⟩ [draftPost]).2).1.body =
        .blogs ({ draftPost with status := .published, updated_at := 5 } :: rest) :=
  ((C13_list_order [draftPost]).2 ⟨5, 5, 5⟩ ⟨some idOne, some [97], some [120], none⟩
    { draftPost with status := .published, updated_at := 5 } (by decide)).2 (by decide)

end StoryNest
